import Mathlib

/-!
# Walk-in queue engine — verification development

Shallow embedding of the queue engine of `src/services/queue_service.py`
(class `QueueService`) together with theorems about its operations.

The `queue_entries` table is modelled as a list of records, the
`specializations` table as a list of `(id, max_capacity, is_active)`
records, and the patient directory as a list of patient ids.  SQL
`ORDER BY status DESC, joined_at ASC` is modelled by a deterministic
insertion sort on the corresponding key; `datetime.now()` is modelled
by a logical clock `now` that each timestamp-writing operation reads
and then advances.  CPython's `int(a * m)` for an integer `a` and a
float literal `m` is modelled exactly by integer round-to-nearest-even
arithmetic on the 2⁻⁵²-scaled significand of `m` (magnitudes are far
below the overflow threshold of IEEE doubles for every state the
service can produce, and the model is exact for all inputs below
2^2048).
-/

namespace HospitalQueue

/-- A row of the `queue_entries` table (see `src/models/queue_entry.py`
and the column list used throughout `queue_service.py`). -/
structure QueueEntry where
  queue_entry_id : Nat
  patient_id : Nat
  specialization_id : Nat
  status : Nat
  position : Nat
  joined_at : Nat
  served_at : Option Nat
  removed_at : Option Nat
  removal_reason : Option Nat
  estimated_wait_time : Nat
  deriving Repr, DecidableEq

/-- The slice of a `specializations` row read by the queue service
(`max_capacity`) plus the `is_active` flag from `src/models/specialization.py`. -/
structure Specialization where
  specialization_id : Nat
  max_capacity : Nat
  is_active : Bool
  deriving Repr, DecidableEq

/-- The database state seen by `QueueService`, plus the autoincrement
counter and the logical clock. -/
structure DBState where
  entries : List QueueEntry
  specializations : List Specialization
  patients : List Nat
  nextId : Nat
  now : Nat
  deriving Repr, DecidableEq

/-- Typed versions of the `ValueError`s raised by
`add_patient_to_queue` and `update_patient_priority`; each constructor
carries the diagnostic datum interpolated into the Python message. -/
inductive QueueError where
  | validationError
  | duplicateActiveEntry (position : Nat)
  | specializationNotFound (specializationId : Nat)
  | capacityExceeded (maxCapacity : Nat)
  deriving Repr, DecidableEq

/-- The SQL predicate `removed_at IS NULL AND served_at IS NULL`. -/
def activeRow (e : QueueEntry) : Bool :=
  e.removed_at.isNone && e.served_at.isNone

/-- `ORDER BY status DESC, joined_at ASC`: `a` sorts no later than `b`. -/
def queueBefore (a b : QueueEntry) : Prop :=
  b.status < a.status ∨ (a.status = b.status ∧ a.joined_at ≤ b.joined_at)

instance : DecidableRel queueBefore := fun a b => by
  unfold queueBefore; infer_instance

instance : IsTrans QueueEntry queueBefore where
  trans a b c hab hbc := by
    rcases hab with h | ⟨h1, h2⟩ <;> rcases hbc with h' | ⟨h1', h2'⟩ <;>
      unfold queueBefore <;> omega

instance : IsTotal QueueEntry queueBefore where
  total a b := by
    by_cases h : b.status < a.status
    · exact Or.inl (Or.inl h)
    · by_cases h' : a.status < b.status
      · exact Or.inr (Or.inl h')
      · rcases Nat.le_total a.joined_at b.joined_at with hj | hj
        · exact Or.inl (Or.inr ⟨by omega, hj⟩)
        · exact Or.inr (Or.inr ⟨by omega, hj⟩)

/-- The `WHERE` clause of `get_queue`: rows of one specialization,
restricted to active rows when `active_only` is set. -/
def rowsFor (s : DBState) (d : Nat) (activeOnly : Bool) : List QueueEntry :=
  s.entries.filter fun e =>
    e.specialization_id == d && (!activeOnly || activeRow e)

/-- The `ORDER BY` of `get_queue`, as a deterministic sort. -/
def sortRows (l : List QueueEntry) : List QueueEntry :=
  List.insertionSort queueBefore l

/-- `enumerate(entries, start=1)` patching `entry.position = idx` on the
returned objects. -/
def withPositions : Nat → List QueueEntry → List QueueEntry
  | _, [] => []
  | i, e :: rest => { e with position := i } :: withPositions (i + 1) rest

/-- `_update_position`: `UPDATE queue_entries SET position = %s WHERE
queue_entry_id = %s`. -/
def setPosition (entries : List QueueEntry) (id pos : Nat) : List QueueEntry :=
  entries.map fun e =>
    if e.queue_entry_id = id then { e with position := pos } else e

/-- The store writes performed by the position-patching loop of
`get_queue`: the `idx`-th row of the sorted list (counting from `i`)
gets `position = idx`.  The Python loop skips the write when the stored
position already equals `idx`; that skipped write is a no-op on the
store, so the net effect is the unconditional update modelled here. -/
def persistPositions : List QueueEntry → Nat → List QueueEntry → List QueueEntry
  | [], _, entries => entries
  | e :: rest, i, entries =>
      persistPositions rest (i + 1) (setPosition entries e.queue_entry_id i)

/-- `QueueService.get_queue`: select and sort the rows, then patch
`position = 1..N` in sorted order both on the returned objects and in
the store. -/
def get_queue (s : DBState) (d : Nat) (activeOnly : Bool) :
    List QueueEntry × DBState :=
  let sorted := sortRows (rowsFor s d activeOnly)
  (withPositions 1 sorted,
   { s with entries := persistPositions sorted 1 s.entries })

/-- `QueueService._reorder_queue_positions`: calls `get_queue` (whose
read path persists the recomputed positions); its own loop then finds
every `entry.position == idx` and writes nothing further. -/
def reorder_queue_positions (s : DBState) (d : Nat) : DBState :=
  (get_queue s d true).2

/-- `QueueService.get_queue_entry`: `SELECT ... WHERE queue_entry_id = %s`. -/
def get_queue_entry (s : DBState) (id : Nat) : Option QueueEntry :=
  s.entries.find? fun e => e.queue_entry_id == id

/-- `ORDER BY joined_at DESC` used by `get_active_queue_entry`. -/
def joinedLater (a b : QueueEntry) : Prop :=
  b.joined_at ≤ a.joined_at

instance : DecidableRel joinedLater := fun a b => by
  unfold joinedLater; infer_instance

/-- `QueueService.get_active_queue_entry`: the most recently joined
active row of the `(patient, specialization)` pair, if any. -/
def get_active_queue_entry (s : DBState) (p d : Nat) : Option QueueEntry :=
  (List.insertionSort joinedLater
    (s.entries.filter fun e =>
      e.patient_id == p && e.specialization_id == d && activeRow e)).head?

/-- `QueueService.AVERAGE_SERVICE_TIME`. -/
def AVERAGE_SERVICE_TIME : Nat := 15

/-- The significand of the IEEE-754 double nearest to the literal
`0.7`, scaled by 2⁵²: `0.7` is stored as `DOUBLE_07_NUM / 2^52`. -/
def DOUBLE_07_NUM : Nat := 3152519739159347

/-- The three priority multipliers `1.0`, `0.7`, `0.5` of
`_calculate_estimated_wait_time`, each as its exact double value scaled
by 2⁵². -/
def multiplierNum (status : Nat) : Nat :=
  if status = 0 then 2 ^ 52
  else if status = 1 then DOUBLE_07_NUM
  else 2 ^ 51

/-- Fuel-bounded ⌊log₂⌋ (exact for arguments below `2 ^ fuel`). -/
def log2F : Nat → Nat → Nat
  | 0, _ => 0
  | fuel + 1, n => if n ≤ 1 then 0 else log2F fuel (n / 2) + 1

/-- Fuel covering every magnitude an IEEE double can hold. -/
def LOG2_FUEL : Nat := 2048

/-- Round the nonnegative rational `n / d` to the nearest integer,
ties to even. -/
def roundHalfEven (n d : Nat) : Nat :=
  let q := n / d
  let r := n % d
  if d < 2 * r then q + 1
  else if 2 * r < d then q
  else if q % 2 = 0 then q else q + 1

/-- The value of CPython's `int(a * m)` where `a` is a nonnegative int
(converted exactly to double) and `m` is the double `c / 2^52`: the
exact product `a*c/2^52` is rounded to 53 significant bits (nearest,
ties to even) and the resulting double truncated toward zero. -/
def intMulFloat (a c : Nat) : Nat :=
  let n := a * c
  if n = 0 then 0
  else
    let e := log2F LOG2_FUEL n
    if 52 ≤ e then
      let m := roundHalfEven n (2 ^ (e - 52))
      if 104 ≤ e then m * 2 ^ (e - 104) else m / 2 ^ (104 - e)
    else
      (n * 2 ^ (52 - e)) / 2 ^ (104 - e)

/-- `QueueService._calculate_estimated_wait_time` (including the
position-patching side effect of its internal `get_queue` call). -/
def calculate_estimated_wait_time (s : DBState) (d status position : Nat) :
    Nat × DBState :=
  let res := get_queue s d true
  let patients_ahead := res.1.countP fun e =>
    status < e.status || (e.status == status && e.position < position)
  (max (intMulFloat (patients_ahead * AVERAGE_SERVICE_TIME)
        (multiplierNum status)) 0,
   res.2)

/-- `SELECT max_capacity FROM specializations WHERE specialization_id = %s`. -/
def find_specialization (s : DBState) (d : Nat) : Option Specialization :=
  s.specializations.find? fun sp => sp.specialization_id == d

/-- `QueueService.add_patient_to_queue`. -/
def add_patient_to_queue (s : DBState) (patient_id specialization_id status : Nat) :
    Except QueueError Nat × DBState :=
  if ¬ (status = 0 ∨ status = 1 ∨ status = 2) then
    (.error .validationError, s)
  else
    match get_active_queue_entry s patient_id specialization_id with
    | some existing => (.error (.duplicateActiveEntry existing.position), s)
    | none =>
      let res := get_queue s specialization_id true
      let active_queue := res.1
      let s1 := res.2
      match find_specialization s1 specialization_id with
      | none => (.error (.specializationNotFound specialization_id), s1)
      | some sp =>
        if sp.max_capacity ≤ active_queue.length then
          (.error (.capacityExceeded sp.max_capacity), s1)
        else
          let position := active_queue.length + 1
          let res2 := calculate_estimated_wait_time s1 specialization_id status position
          let s2 := res2.2
          let entry : QueueEntry :=
            { queue_entry_id := s2.nextId
              patient_id := patient_id
              specialization_id := specialization_id
              status := status
              position := position
              joined_at := s2.now
              served_at := none
              removed_at := none
              removal_reason := none
              estimated_wait_time := res2.1 }
          let s3 : DBState :=
            { s2 with
              entries := s2.entries ++ [entry]
              nextId := s2.nextId + 1
              now := s2.now + 1 }
          (.ok entry.queue_entry_id, reorder_queue_positions s3 specialization_id)

/-- `QueueService.remove_patient_from_queue`.  No activity check: any
row found by id gets `removed_at`/`removal_reason` overwritten.  The
reorder is guarded by Python truthiness of `entry.specialization_id`. -/
def remove_patient_from_queue (s : DBState) (queue_entry_id : Nat)
    (reason : Option Nat) : Bool × DBState :=
  match get_queue_entry s queue_entry_id with
  | none => (false, s)
  | some entry =>
    let s1 : DBState :=
      { s with
        entries := s.entries.map fun e =>
          if e.queue_entry_id = queue_entry_id then
            { e with removed_at := some s.now, removal_reason := reason }
          else e
        now := s.now + 1 }
    (true,
     if entry.specialization_id ≠ 0 then
       reorder_queue_positions s1 entry.specialization_id
     else s1)

/-- `QueueService.serve_patient`.  No activity check: any row found by
id gets `served_at = now, status = 3`, even if already terminal. -/
def serve_patient (s : DBState) (queue_entry_id : Nat) : Bool × DBState :=
  match get_queue_entry s queue_entry_id with
  | none => (false, s)
  | some entry =>
    let s1 : DBState :=
      { s with
        entries := s.entries.map fun e =>
          if e.queue_entry_id = queue_entry_id then
            { e with served_at := some s.now, status := 3 }
          else e
        now := s.now + 1 }
    (true,
     if entry.specialization_id ≠ 0 then
       reorder_queue_positions s1 entry.specialization_id
     else s1)

/-- `QueueService.get_next_patient`: serve the head of the sorted
active queue; `None` (not an error) on an empty queue. -/
def get_next_patient (s : DBState) (d : Nat) : Option QueueEntry × DBState :=
  match (get_queue s d true).1 with
  | [] => (none, (get_queue s d true).2)
  | next :: _ =>
      (some next,
       (serve_patient (get_queue s d true).2 next.queue_entry_id).2)

/-- `QueueService.update_patient_priority`: validates the new status,
then updates `status` only and reorders; no activity check. -/
def update_patient_priority (s : DBState) (queue_entry_id new_status : Nat) :
    Except QueueError Bool × DBState :=
  if ¬ (new_status = 0 ∨ new_status = 1 ∨ new_status = 2) then
    (.error .validationError, s)
  else
    match get_queue_entry s queue_entry_id with
    | none => (.ok false, s)
    | some entry =>
      let s1 : DBState :=
        { s with
          entries := s.entries.map fun e =>
            if e.queue_entry_id = queue_entry_id then
              { e with status := new_status }
            else e }
      (.ok true,
       if entry.specialization_id ≠ 0 then
         reorder_queue_positions s1 entry.specialization_id
       else s1)

/-- Active rows of one department, in table order. -/
def activeRows (s : DBState) (d : Nat) : List QueueEntry :=
  rowsFor s d true

/-- Number of active rows of one department. -/
def activeCount (s : DBState) (d : Nat) : Nat :=
  (activeRows s d).length

/-- The authoritative active ordering of a department: priority
descending, then `joined_at` ascending. -/
def sortedActive (s : DBState) (d : Nat) : List QueueEntry :=
  sortRows (activeRows s d)

/-- The ordering invariant: the stored positions of the active rows,
read off in sorted order, are exactly `1..N`. -/
def OrderedPositions (s : DBState) (d : Nat) : Prop :=
  (sortedActive s d).map (fun e => e.position) =
    List.range' 1 (sortedActive s d).length

/-- Table ids are pairwise distinct (true of every state the service
produces, since ids come from the autoincrement counter). -/
def NodupIds (s : DBState) : Prop :=
  (s.entries.map fun e => e.queue_entry_id).Nodup

/-- All stored timestamps lie strictly in the past and all ids are
below the autoincrement counter. -/
def WellFormed (s : DBState) : Prop :=
  NodupIds s ∧
  ∀ e ∈ s.entries, e.joined_at < s.now ∧ e.queue_entry_id < s.nextId

end HospitalQueue

namespace HospitalQueue

/-! ## Position-patching machinery -/

/-- Patch one row's position from an assignment list (keyed by id). -/
def lookupPatch (assign : List QueueEntry) (e : QueueEntry) : QueueEntry :=
  match assign.find? (fun x => x.queue_entry_id == e.queue_entry_id) with
  | some x => { e with position := x.position }
  | none => e

theorem lookupPatch_eq_setPos (assign : List QueueEntry) (e : QueueEntry) :
    ∃ p, lookupPatch assign e = { e with position := p } := by
  unfold lookupPatch
  cases assign.find? (fun x => x.queue_entry_id == e.queue_entry_id) with
  | none => exact ⟨e.position, rfl⟩
  | some x => exact ⟨x.position, rfl⟩

theorem lookupPatch_queue_entry_id (assign : List QueueEntry) (e : QueueEntry) :
    (lookupPatch assign e).queue_entry_id = e.queue_entry_id := by
  obtain ⟨p, hp⟩ := lookupPatch_eq_setPos assign e
  rw [hp]

theorem lookupPatch_specialization_id (assign : List QueueEntry) (e : QueueEntry) :
    (lookupPatch assign e).specialization_id = e.specialization_id := by
  obtain ⟨p, hp⟩ := lookupPatch_eq_setPos assign e
  rw [hp]

theorem lookupPatch_activeRow (assign : List QueueEntry) (e : QueueEntry) :
    activeRow (lookupPatch assign e) = activeRow e := by
  obtain ⟨p, hp⟩ := lookupPatch_eq_setPos assign e
  rw [hp]; rfl

theorem lookupPatch_status (assign : List QueueEntry) (e : QueueEntry) :
    (lookupPatch assign e).status = e.status := by
  obtain ⟨p, hp⟩ := lookupPatch_eq_setPos assign e
  rw [hp]

theorem lookupPatch_joined_at (assign : List QueueEntry) (e : QueueEntry) :
    (lookupPatch assign e).joined_at = e.joined_at := by
  obtain ⟨p, hp⟩ := lookupPatch_eq_setPos assign e
  rw [hp]

theorem withPositions_length (i : Nat) (l : List QueueEntry) :
    (withPositions i l).length = l.length := by
  induction l generalizing i with
  | nil => rfl
  | cons a t ih => simp [withPositions, ih]

theorem withPositions_map_position (i : Nat) (l : List QueueEntry) :
    (withPositions i l).map (fun e => e.position) = List.range' i l.length := by
  induction l generalizing i with
  | nil => rfl
  | cons a t ih => simp [withPositions, List.range', ih]

theorem withPositions_map_queue_entry_id (i : Nat) (l : List QueueEntry) :
    (withPositions i l).map (fun e => e.queue_entry_id) =
      l.map (fun e => e.queue_entry_id) := by
  induction l generalizing i with
  | nil => rfl
  | cons a t ih => simp [withPositions, ih]

theorem persistPositions_eq_map (l : List QueueEntry) (i : Nat)
    (entries : List QueueEntry)
    (hl : (l.map fun e => e.queue_entry_id).Nodup) :
    persistPositions l i entries = entries.map (lookupPatch (withPositions i l)) := by
  induction l generalizing i entries with
  | nil =>
    show entries = entries.map (lookupPatch [])
    rw [show lookupPatch [] = id from funext fun e => rfl, List.map_id]
  | cons a t ih =>
    simp only [persistPositions]
    rw [ih (i + 1) _ (by simpa using hl.of_cons)]
    unfold setPosition
    rw [List.map_map]
    apply List.map_congr_left
    intro e _
    simp only [Function.comp]
    by_cases hid : e.queue_entry_id = a.queue_entry_id
    · rw [if_pos hid]
      have hnone :
          (withPositions (i + 1) t).find?
            (fun x => x.queue_entry_id == e.queue_entry_id) = none := by
        rw [List.find?_eq_none]
        intro x hx
        have hxid : x.queue_entry_id ∈ t.map (fun e => e.queue_entry_id) := by
          rw [← withPositions_map_queue_entry_id (i + 1) t]
          exact List.mem_map_of_mem _ hx
        simp only [List.map_cons, List.nodup_cons] at hl
        intro hbeq
        apply hl.1
        have hxe : x.queue_entry_id = e.queue_entry_id := by simpa using hbeq
        rw [hxe, hid] at hxid
        exact hxid
      unfold lookupPatch
      simp only [withPositions, List.find?]
      have hhead : (({ a with position := i } : QueueEntry).queue_entry_id ==
          ({ e with position := i } : QueueEntry).queue_entry_id) = true := by
        simp [hid]
      rw [hhead]
      simp only []
      have hnone2 :
          (withPositions (i + 1) t).find?
            (fun x => x.queue_entry_id ==
              ({ e with position := i } : QueueEntry).queue_entry_id) = none := by
        simpa using hnone
      rw [hnone2]
    · rw [if_neg hid]
      unfold lookupPatch
      simp only [withPositions, List.find?]
      have hhead : (({ a with position := i } : QueueEntry).queue_entry_id ==
          e.queue_entry_id) = false := by
        simp [Ne.symm hid]
      rw [hhead]

theorem map_lookupPatch_self (l : List QueueEntry) (i : Nat)
    (hl : (l.map fun e => e.queue_entry_id).Nodup) :
    l.map (lookupPatch (withPositions i l)) = withPositions i l := by
  induction l generalizing i with
  | nil => rfl
  | cons a t ih =>
    simp only [List.map_cons, withPositions]
    have hhead :
        lookupPatch (({ a with position := i } : QueueEntry) ::
          withPositions (i + 1) t) a = { a with position := i } := by
      unfold lookupPatch
      simp only [List.find?]
      have hb : (({ a with position := i } : QueueEntry).queue_entry_id ==
          a.queue_entry_id) = true := by simp
      rw [hb]
    have htail :
        t.map (lookupPatch (({ a with position := i } : QueueEntry) ::
          withPositions (i + 1) t)) = withPositions (i + 1) t := by
      have hcongr :
          t.map (lookupPatch (({ a with position := i } : QueueEntry) ::
            withPositions (i + 1) t)) =
          t.map (lookupPatch (withPositions (i + 1) t)) := by
        apply List.map_congr_left
        intro e he
        have hne : a.queue_entry_id ≠ e.queue_entry_id := by
          simp only [List.map_cons, List.nodup_cons] at hl
          intro hcontra
          exact hl.1 (hcontra ▸ List.mem_map_of_mem _ he)
        have hskip :
            List.find? (fun x => x.queue_entry_id == e.queue_entry_id)
              (({ a with position := i } : QueueEntry) ::
                withPositions (i + 1) t) =
            List.find? (fun x => x.queue_entry_id == e.queue_entry_id)
              (withPositions (i + 1) t) :=
          List.find?_cons_of_neg _ (by simp [hne])
        unfold lookupPatch
        rw [hskip]
      rw [hcongr, ih (i + 1) (by simpa using hl.of_cons)]
    rw [hhead, htail]

end HospitalQueue

namespace HospitalQueue

/-! ## `get_queue` as a pointwise position patch -/

theorem queueBefore_lookupPatch (assign : List QueueEntry) (a b : QueueEntry) :
    queueBefore (lookupPatch assign a) (lookupPatch assign b) ↔ queueBefore a b := by
  unfold queueBefore
  rw [lookupPatch_status, lookupPatch_status,
    lookupPatch_joined_at, lookupPatch_joined_at]

theorem orderedInsert_map (f : QueueEntry → QueueEntry)
    (hf : ∀ a b, queueBefore (f a) (f b) ↔ queueBefore a b)
    (a : QueueEntry) (l : List QueueEntry) :
    List.orderedInsert queueBefore (f a) (l.map f) =
      (List.orderedInsert queueBefore a l).map f := by
  induction l with
  | nil => rfl
  | cons b t ih =>
    simp only [List.map_cons, List.orderedInsert]
    by_cases h : queueBefore a b
    · rw [if_pos ((hf a b).mpr h), if_pos h, List.map_cons, List.map_cons]
    · rw [if_neg (fun hc => h ((hf a b).mp hc)), if_neg h, List.map_cons, ih]

theorem insertionSort_map (f : QueueEntry → QueueEntry)
    (hf : ∀ a b, queueBefore (f a) (f b) ↔ queueBefore a b)
    (l : List QueueEntry) :
    List.insertionSort queueBefore (l.map f) =
      (List.insertionSort queueBefore l).map f := by
  induction l with
  | nil => rfl
  | cons a t ih =>
    simp only [List.map_cons, List.insertionSort, ih, orderedInsert_map f hf]

theorem filter_map_comm (f : QueueEntry → QueueEntry) (p : QueueEntry → Bool)
    (hp : ∀ e, p (f e) = p e) (l : List QueueEntry) :
    (l.map f).filter p = (l.filter p).map f := by
  induction l with
  | nil => rfl
  | cons a t ih =>
    simp only [List.map_cons, List.filter_cons, hp a]
    cases hpa : p a
    · simpa using ih
    · simpa using ih

/-- The pointwise store effect of `get_queue s d b` on every row. -/
def patchFn (s : DBState) (d : Nat) (b : Bool) : QueueEntry → QueueEntry :=
  lookupPatch (withPositions 1 (sortRows (rowsFor s d b)))

theorem patchFn_queue_entry_id (s : DBState) (d : Nat) (b : Bool) (e : QueueEntry) :
    (patchFn s d b e).queue_entry_id = e.queue_entry_id :=
  lookupPatch_queue_entry_id _ e

theorem nodup_ids_rowsFor (s : DBState) (d : Nat) (b : Bool) (h : NodupIds s) :
    ((rowsFor s d b).map fun e => e.queue_entry_id).Nodup :=
  List.Nodup.sublist ((List.filter_sublist _).map _) h

theorem nodup_ids_sortRows (l : List QueueEntry)
    (h : (l.map fun e => e.queue_entry_id).Nodup) :
    ((sortRows l).map fun e => e.queue_entry_id).Nodup :=
  (((List.perm_insertionSort queueBefore l).map _).nodup_iff).mpr h

theorem get_queue_snd_entries (s : DBState) (d : Nat) (b : Bool) (h : NodupIds s) :
    (get_queue s d b).2.entries = s.entries.map (patchFn s d b) :=
  persistPositions_eq_map _ _ _
    (nodup_ids_sortRows _ (nodup_ids_rowsFor s d b h))

theorem get_queue_snd_now (s : DBState) (d : Nat) (b : Bool) :
    (get_queue s d b).2.now = s.now := rfl

theorem get_queue_snd_nextId (s : DBState) (d : Nat) (b : Bool) :
    (get_queue s d b).2.nextId = s.nextId := rfl

theorem get_queue_snd_specializations (s : DBState) (d : Nat) (b : Bool) :
    (get_queue s d b).2.specializations = s.specializations := rfl

theorem get_queue_snd_patients (s : DBState) (d : Nat) (b : Bool) :
    (get_queue s d b).2.patients = s.patients := rfl

theorem rowsFor_pred_lookupPatch (assign : List QueueEntry) (d' : Nat) (b' : Bool)
    (e : QueueEntry) :
    ((lookupPatch assign e).specialization_id == d' &&
      (!b' || activeRow (lookupPatch assign e))) =
    (e.specialization_id == d' && (!b' || activeRow e)) := by
  rw [lookupPatch_specialization_id, lookupPatch_activeRow]

theorem rowsFor_get_queue_snd (s : DBState) (d : Nat) (b : Bool) (d' : Nat)
    (b' : Bool) (h : NodupIds s) :
    rowsFor (get_queue s d b).2 d' b' = (rowsFor s d' b').map (patchFn s d b) := by
  unfold rowsFor
  rw [get_queue_snd_entries s d b h]
  exact filter_map_comm _ _ (fun e => rowsFor_pred_lookupPatch _ d' b' e) _

theorem sortedActive_get_queue_snd (s : DBState) (d : Nat) (h : NodupIds s) :
    sortedActive (get_queue s d true).2 d = withPositions 1 (sortedActive s d) := by
  unfold sortedActive activeRows
  rw [rowsFor_get_queue_snd s d true d true h]
  unfold sortRows
  rw [insertionSort_map (patchFn s d true)
    (fun a b => queueBefore_lookupPatch _ a b)]
  exact map_lookupPatch_self _ 1
    (nodup_ids_sortRows _ (nodup_ids_rowsFor s d true h))

theorem reorder_ordered (s : DBState) (d : Nat) (h : NodupIds s) :
    OrderedPositions (reorder_queue_positions s d) d := by
  unfold OrderedPositions reorder_queue_positions
  rw [sortedActive_get_queue_snd s d h, withPositions_map_position,
    withPositions_length]

theorem withPositions_eq_self_of_positions (l : List QueueEntry) (i : Nat)
    (h : l.map (fun e => e.position) = List.range' i l.length) :
    withPositions i l = l := by
  induction l generalizing i with
  | nil => rfl
  | cons a t ih =>
    simp only [List.map_cons, List.length_cons, List.range'] at h
    have ha : a.position = i := (List.cons_eq_cons.mp h).1
    have ht : t.map (fun e => e.position) = List.range' (i + 1) t.length :=
      (List.cons_eq_cons.mp h).2
    simp only [withPositions, ih (i + 1) ht]
    have : ({ a with position := i } : QueueEntry) = a := by
      rw [← ha]
    rw [this]

theorem get_queue_id_of_ordered (s : DBState) (d : Nat) (h : NodupIds s)
    (ho : OrderedPositions s d) : (get_queue s d true).2 = s := by
  have hassign : withPositions 1 (sortRows (rowsFor s d true)) =
      sortRows (rowsFor s d true) :=
    withPositions_eq_self_of_positions _ 1 ho
  have hpt : ∀ e ∈ s.entries, patchFn s d true e = e := by
    intro e he
    unfold patchFn
    rw [hassign]
    unfold lookupPatch
    cases hf : (sortRows (rowsFor s d true)).find?
        (fun x => x.queue_entry_id == e.queue_entry_id) with
    | none => rfl
    | some x =>
      have hxmem : x ∈ sortRows (rowsFor s d true) :=
        List.mem_of_find?_eq_some hf
      have hxid : x.queue_entry_id = e.queue_entry_id := by
        simpa using List.find?_some hf
      have hxent : x ∈ s.entries := by
        have : x ∈ rowsFor s d true :=
          ((List.perm_insertionSort queueBefore _).mem_iff).mp hxmem
        exact List.mem_of_mem_filter this
      have hxe : x = e :=
        List.inj_on_of_nodup_map h hxent he hxid
      rw [hxe]
  have hentries : (get_queue s d true).2.entries = s.entries := by
    rw [get_queue_snd_entries s d true h]
    calc s.entries.map (patchFn s d true)
        = s.entries.map id := List.map_congr_left fun e he => hpt e he
      _ = s.entries := List.map_id _
  calc (get_queue s d true).2
      = { s with entries := (get_queue s d true).2.entries } := rfl
    _ = { s with entries := s.entries } := by rw [hentries]
    _ = s := rfl

theorem nodupIds_get_queue (s : DBState) (d : Nat) (b : Bool) (h : NodupIds s) :
    NodupIds (get_queue s d b).2 := by
  unfold NodupIds
  rw [get_queue_snd_entries s d b h, List.map_map]
  have hcomp : ((fun e : QueueEntry => e.queue_entry_id) ∘ patchFn s d b) =
      fun e => e.queue_entry_id :=
    funext fun e => patchFn_queue_entry_id s d b e
  rw [hcomp]
  exact h

end HospitalQueue

namespace HospitalQueue

/-! ## Support lemmas about the operations -/

theorem queueBefore_refl (e : QueueEntry) : queueBefore e e :=
  Or.inr ⟨rfl, Nat.le_refl _⟩

theorem sortRows_pairwise (l : List QueueEntry) :
    List.Pairwise queueBefore (sortRows l) :=
  List.sorted_insertionSort queueBefore l

theorem sortRows_perm (l : List QueueEntry) : (sortRows l).Perm l :=
  List.perm_insertionSort queueBefore l

theorem sortRows_length (l : List QueueEntry) : (sortRows l).length = l.length :=
  (sortRows_perm l).length_eq

theorem get_queue_fst_length (s : DBState) (d : Nat) (b : Bool) :
    (get_queue s d b).1.length = (rowsFor s d b).length := by
  show (withPositions 1 (sortRows (rowsFor s d b))).length = _
  rw [withPositions_length, sortRows_length]

theorem head_sortRows_queueBefore (l : List QueueEntry) (next : QueueEntry)
    (rest : List QueueEntry) (h : sortRows l = next :: rest) :
    ∀ e ∈ l, queueBefore next e := by
  intro e he
  have hmem : e ∈ next :: rest := h ▸ (sortRows_perm l).mem_iff.mpr he
  rcases List.mem_cons.mp hmem with rfl | hrest
  · exact queueBefore_refl e
  · have hpw := sortRows_pairwise l
    rw [h] at hpw
    exact (List.pairwise_cons.mp hpw).1 e hrest

theorem find?_id_map (f : QueueEntry → QueueEntry)
    (hf : ∀ e, (f e).queue_entry_id = e.queue_entry_id)
    (l : List QueueEntry) (id : Nat) :
    (l.map f).find? (fun e => e.queue_entry_id == id) =
      (l.find? (fun e => e.queue_entry_id == id)).map f := by
  rw [List.find?_map]
  have : ((fun e : QueueEntry => e.queue_entry_id == id) ∘ f) =
      fun e : QueueEntry => e.queue_entry_id == id :=
    funext fun e => by simp [Function.comp, hf e]
  rw [this]

theorem get_queue_entry_after_get_queue (s : DBState) (d : Nat) (b : Bool)
    (id : Nat) (h : NodupIds s) :
    get_queue_entry (get_queue s d b).2 id =
      (get_queue_entry s id).map (patchFn s d b) := by
  unfold get_queue_entry
  rw [get_queue_snd_entries s d b h]
  exact find?_id_map _ (patchFn_queue_entry_id s d b) _ id

theorem activeCount_get_queue (s : DBState) (d : Nat) (b : Bool) (d' : Nat)
    (h : NodupIds s) :
    activeCount (get_queue s d b).2 d' = activeCount s d' := by
  unfold activeCount activeRows
  rw [rowsFor_get_queue_snd s d b d' true h, List.length_map]

theorem countP_withPositions_aheadPred (l : List QueueEntry) (st i pos : Nat)
    (hpos : i + l.length ≤ pos) :
    (withPositions i l).countP
      (fun e => st < e.status || (e.status == st && e.position < pos)) =
    l.countP (fun e => decide (st ≤ e.status)) := by
  induction l generalizing i with
  | nil => rfl
  | cons a t ih =>
    simp only [withPositions, List.countP_cons]
    rw [ih (i + 1) (by simp at hpos ⊢; omega)]
    have hi : i < pos := by simp at hpos; omega
    by_cases hs : st ≤ a.status
    · by_cases hlt : st < a.status
      · simp [hlt, hs]
      · have heq : a.status = st := by omega
        simp [heq, hi, hs]
    · have h1 : ¬ st < a.status := by omega
      have h2 : a.status ≠ st := by omega
      simp [h1, h2, hs]

theorem countP_status_map_lookupPatch (assign : List QueueEntry)
    (l : List QueueEntry) (p : Nat → Bool) :
    (l.map (lookupPatch assign)).countP (fun e => p e.status) =
      l.countP (fun e => p e.status) := by
  rw [List.countP_map]
  apply List.countP_congr
  intro e _
  simp [Function.comp, lookupPatch_status]

theorem countP_sortRows (l : List QueueEntry) (p : QueueEntry → Bool) :
    (sortRows l).countP p = l.countP p :=
  (sortRows_perm l).countP_eq p

end HospitalQueue

namespace HospitalQueue

/-! ## Path equations for the five operations -/

theorem find_specialization_get_queue (s : DBState) (d : Nat) (b : Bool)
    (d' : Nat) :
    find_specialization (get_queue s d b).2 d' = find_specialization s d' := rfl

/-- The raw row write of `serve_patient` (before the reorder). -/
def serveWrite (s : DBState) (queue_entry_id : Nat) : DBState :=
  { s with
    entries := s.entries.map fun e =>
      if e.queue_entry_id = queue_entry_id then
        { e with served_at := some s.now, status := 3 }
      else e
    now := s.now + 1 }

/-- The raw row write of `remove_patient_from_queue` (before the reorder). -/
def removeWrite (s : DBState) (queue_entry_id : Nat) (reason : Option Nat) :
    DBState :=
  { s with
    entries := s.entries.map fun e =>
      if e.queue_entry_id = queue_entry_id then
        { e with removed_at := some s.now, removal_reason := reason }
      else e
    now := s.now + 1 }

/-- The raw row write of `update_patient_priority` (before the reorder). -/
def updateWrite (s : DBState) (queue_entry_id new_status : Nat) : DBState :=
  { s with
    entries := s.entries.map fun e =>
      if e.queue_entry_id = queue_entry_id then
        { e with status := new_status }
      else e }

theorem serve_patient_none (s : DBState) (id : Nat)
    (h : get_queue_entry s id = none) : serve_patient s id = (false, s) := by
  unfold serve_patient
  rw [h]

theorem serve_patient_some (s : DBState) (id : Nat) (e : QueueEntry)
    (h : get_queue_entry s id = some e) :
    serve_patient s id =
      (true,
       if e.specialization_id ≠ 0 then
         reorder_queue_positions (serveWrite s id) e.specialization_id
       else serveWrite s id) := by
  unfold serve_patient serveWrite
  rw [h]

theorem remove_patient_none (s : DBState) (id : Nat) (reason : Option Nat)
    (h : get_queue_entry s id = none) :
    remove_patient_from_queue s id reason = (false, s) := by
  unfold remove_patient_from_queue
  rw [h]

theorem remove_patient_some (s : DBState) (id : Nat) (reason : Option Nat)
    (e : QueueEntry) (h : get_queue_entry s id = some e) :
    remove_patient_from_queue s id reason =
      (true,
       if e.specialization_id ≠ 0 then
         reorder_queue_positions (removeWrite s id reason) e.specialization_id
       else removeWrite s id reason) := by
  unfold remove_patient_from_queue removeWrite
  rw [h]

theorem update_priority_invalid (s : DBState) (id st : Nat)
    (hst : ¬ (st = 0 ∨ st = 1 ∨ st = 2)) :
    update_patient_priority s id st = (.error .validationError, s) := by
  unfold update_patient_priority
  rw [if_pos hst]

theorem update_priority_none (s : DBState) (id st : Nat)
    (hst : st = 0 ∨ st = 1 ∨ st = 2) (h : get_queue_entry s id = none) :
    update_patient_priority s id st = (.ok false, s) := by
  unfold update_patient_priority
  rw [if_neg (by tauto), h]

theorem update_priority_some (s : DBState) (id st : Nat) (e : QueueEntry)
    (hst : st = 0 ∨ st = 1 ∨ st = 2) (h : get_queue_entry s id = some e) :
    update_patient_priority s id st =
      (.ok true,
       if e.specialization_id ≠ 0 then
         reorder_queue_positions (updateWrite s id st) e.specialization_id
       else updateWrite s id st) := by
  unfold update_patient_priority updateWrite
  rw [if_neg (by tauto), h]

theorem add_validation_eq (s : DBState) (p d st : Nat)
    (hst : ¬ (st = 0 ∨ st = 1 ∨ st = 2)) :
    add_patient_to_queue s p d st = (.error .validationError, s) := by
  unfold add_patient_to_queue
  rw [if_pos hst]

theorem add_duplicate_eq (s : DBState) (p d st : Nat) (e : QueueEntry)
    (hst : st = 0 ∨ st = 1 ∨ st = 2)
    (hdup : get_active_queue_entry s p d = some e) :
    add_patient_to_queue s p d st =
      (.error (.duplicateActiveEntry e.position), s) := by
  unfold add_patient_to_queue
  rw [if_neg (by tauto), hdup]

theorem add_notfound_eq (s : DBState) (p d st : Nat)
    (hst : st = 0 ∨ st = 1 ∨ st = 2)
    (hdup : get_active_queue_entry s p d = none)
    (hsp : find_specialization s d = none) :
    add_patient_to_queue s p d st =
      (.error (.specializationNotFound d), (get_queue s d true).2) := by
  unfold add_patient_to_queue
  rw [if_neg (by tauto), hdup]
  simp only [find_specialization_get_queue, hsp]

theorem add_capacity_eq (s : DBState) (p d st : Nat) (sp : Specialization)
    (hst : st = 0 ∨ st = 1 ∨ st = 2)
    (hdup : get_active_queue_entry s p d = none)
    (hsp : find_specialization s d = some sp)
    (hcap : sp.max_capacity ≤ (get_queue s d true).1.length) :
    add_patient_to_queue s p d st =
      (.error (.capacityExceeded sp.max_capacity), (get_queue s d true).2) := by
  unfold add_patient_to_queue
  rw [if_neg (by tauto), hdup]
  simp only [find_specialization_get_queue, hsp]
  rw [if_pos hcap]

/-- The row inserted by a successful `add_patient_to_queue`. -/
def newEntry (s : DBState) (p d st : Nat) : QueueEntry :=
  { queue_entry_id := s.nextId
    patient_id := p
    specialization_id := d
    status := st
    position := (get_queue s d true).1.length + 1
    joined_at := s.now
    served_at := none
    removed_at := none
    removal_reason := none
    estimated_wait_time :=
      (calculate_estimated_wait_time (get_queue s d true).2 d st
        ((get_queue s d true).1.length + 1)).1 }

/-- The state after a successful `add_patient_to_queue`. -/
def addSuccessState (s : DBState) (p d st : Nat) : DBState :=
  let s2 := (calculate_estimated_wait_time (get_queue s d true).2 d st
    ((get_queue s d true).1.length + 1)).2
  reorder_queue_positions
    { s2 with
      entries := s2.entries ++ [newEntry s p d st]
      nextId := s2.nextId + 1
      now := s2.now + 1 } d

theorem add_success_eq (s : DBState) (p d st : Nat) (sp : Specialization)
    (hst : st = 0 ∨ st = 1 ∨ st = 2)
    (hdup : get_active_queue_entry s p d = none)
    (hsp : find_specialization s d = some sp)
    (hcap : ¬ sp.max_capacity ≤ (get_queue s d true).1.length) :
    add_patient_to_queue s p d st = (.ok s.nextId, addSuccessState s p d st) := by
  unfold add_patient_to_queue addSuccessState newEntry
  rw [if_neg (by tauto), hdup]
  simp only [find_specialization_get_queue, hsp]
  rw [if_neg hcap]
  rfl

end HospitalQueue

namespace HospitalQueue

/-! ## Well-formedness preservation -/

theorem calculate_snd (s : DBState) (d st pos : Nat) :
    (calculate_estimated_wait_time s d st pos).2 = (get_queue s d true).2 := rfl

theorem patchFn_joined_at (s : DBState) (d : Nat) (b : Bool) (e : QueueEntry) :
    (patchFn s d b e).joined_at = e.joined_at :=
  lookupPatch_joined_at _ e

theorem nodup_ids_map_of_id (l : List QueueEntry) (g : QueueEntry → QueueEntry)
    (hg : ∀ e, (g e).queue_entry_id = e.queue_entry_id)
    (h : (l.map fun e => e.queue_entry_id).Nodup) :
    ((l.map g).map fun e => e.queue_entry_id).Nodup := by
  rw [List.map_map,
    show ((fun e : QueueEntry => e.queue_entry_id) ∘ g) =
      fun e : QueueEntry => e.queue_entry_id from funext hg]
  exact h

theorem wellFormed_get_queue (s : DBState) (d : Nat) (b : Bool)
    (h : WellFormed s) : WellFormed (get_queue s d b).2 := by
  obtain ⟨h1, h2⟩ := h
  refine ⟨nodupIds_get_queue s d b h1, ?_⟩
  intro e he
  rw [get_queue_snd_entries s d b h1] at he
  obtain ⟨e0, he0, rfl⟩ := List.mem_map.mp he
  rw [get_queue_snd_now, get_queue_snd_nextId,
    patchFn_joined_at, patchFn_queue_entry_id]
  exact h2 e0 he0

theorem wellFormed_rowUpdate (s : DBState) (g : QueueEntry → QueueEntry)
    (hg_id : ∀ e, (g e).queue_entry_id = e.queue_entry_id)
    (hg_j : ∀ e, (g e).joined_at = e.joined_at)
    (now' : Nat) (hn : s.now ≤ now') (h : WellFormed s) :
    WellFormed { s with entries := s.entries.map g, now := now' } := by
  obtain ⟨h1, h2⟩ := h
  constructor
  · exact nodup_ids_map_of_id s.entries g hg_id h1
  · intro e he
    obtain ⟨e0, he0, rfl⟩ := List.mem_map.mp he
    have := h2 e0 he0
    refine ⟨?_, ?_⟩
    · show (g e0).joined_at < now'
      rw [hg_j]
      omega
    · show (g e0).queue_entry_id < s.nextId
      rw [hg_id]
      exact this.2

theorem wellFormed_append_entry (s : DBState) (e : QueueEntry)
    (hid : e.queue_entry_id = s.nextId) (hj : e.joined_at = s.now)
    (h : WellFormed s) :
    WellFormed
      { s with
        entries := s.entries ++ [e]
        nextId := s.nextId + 1
        now := s.now + 1 } := by
  obtain ⟨h1, h2⟩ := h
  constructor
  · show ((s.entries ++ [e]).map fun x => x.queue_entry_id).Nodup
    rw [List.map_append]
    apply List.Nodup.append h1 (List.nodup_singleton _)
    intro a ha ha'
    obtain ⟨x, hx, rfl⟩ := List.mem_map.mp ha
    have hxlt : x.queue_entry_id < s.nextId := (h2 x hx).2
    have : x.queue_entry_id = e.queue_entry_id := by
      simpa using ha'
    omega
  · intro x hx
    show x.joined_at < s.now + 1 ∧ x.queue_entry_id < s.nextId + 1
    rcases List.mem_append.mp hx with hx | hx
    · have := h2 x hx
      exact ⟨by omega, by omega⟩
    · rw [List.mem_singleton.mp hx, hid, hj]
      exact ⟨Nat.lt_succ_self _, Nat.lt_succ_self _⟩

theorem wellFormed_serveWrite (s : DBState) (id : Nat) (h : WellFormed s) :
    WellFormed (serveWrite s id) :=
  wellFormed_rowUpdate s _
    (fun e => by by_cases hc : e.queue_entry_id = id <;> simp [hc])
    (fun e => by by_cases hc : e.queue_entry_id = id <;> simp [hc])
    (s.now + 1) (Nat.le_succ _) h

theorem wellFormed_removeWrite (s : DBState) (id : Nat) (reason : Option Nat)
    (h : WellFormed s) : WellFormed (removeWrite s id reason) :=
  wellFormed_rowUpdate s _
    (fun e => by by_cases hc : e.queue_entry_id = id <;> simp [hc])
    (fun e => by by_cases hc : e.queue_entry_id = id <;> simp [hc])
    (s.now + 1) (Nat.le_succ _) h

theorem wellFormed_updateWrite (s : DBState) (id st : Nat) (h : WellFormed s) :
    WellFormed (updateWrite s id st) :=
  wellFormed_rowUpdate s _
    (fun e => by by_cases hc : e.queue_entry_id = id <;> simp [hc])
    (fun e => by by_cases hc : e.queue_entry_id = id <;> simp [hc])
    s.now (Nat.le_refl _) h

theorem wellFormed_addSuccessState (s : DBState) (p d st : Nat)
    (h : WellFormed s) : WellFormed (addSuccessState s p d st) := by
  unfold addSuccessState
  apply wellFormed_get_queue
  exact wellFormed_append_entry
    (calculate_estimated_wait_time (get_queue s d true).2 d st
      ((get_queue s d true).1.length + 1)).2
    (newEntry s p d st) rfl rfl
    (wellFormed_get_queue _ d true (wellFormed_get_queue s d true h))

end HospitalQueue

namespace HospitalQueue

instance wellFormedDecidable (s : DBState) : Decidable (WellFormed s) := by
  unfold WellFormed NodupIds
  infer_instance

instance orderedPositionsDecidable (s : DBState) (d : Nat) :
    Decidable (OrderedPositions s d) := by
  unfold OrderedPositions
  infer_instance

theorem ordered_addSuccessState (s : DBState) (p d st : Nat)
    (h : WellFormed s) : OrderedPositions (addSuccessState s p d st) d := by
  unfold addSuccessState
  apply reorder_ordered
  exact (wellFormed_append_entry
    (calculate_estimated_wait_time (get_queue s d true).2 d st
      ((get_queue s d true).1.length + 1)).2
    (newEntry s p d st) rfl rfl
    (wellFormed_get_queue _ d true (wellFormed_get_queue s d true h))).1

/-- C3: for every department, after each mutating operation (join,
serve, remove, reprioritize) touching it, the stored positions of its
active rows, read in (priority desc, joined_at asc) order, are exactly
the contiguous sequence `1..N`. -/
theorem C3_ordering_invariant (s : DBState) (d : Nat) (h : WellFormed s) :
    (∀ p st r s', add_patient_to_queue s p d st = (Except.ok r, s') →
        OrderedPositions s' d)
  ∧ (∀ id e, get_queue_entry s id = some e → e.specialization_id = d →
        d ≠ 0 → OrderedPositions (serve_patient s id).2 d)
  ∧ (∀ id e reason, get_queue_entry s id = some e → e.specialization_id = d →
        d ≠ 0 → OrderedPositions (remove_patient_from_queue s id reason).2 d)
  ∧ (∀ id e st, get_queue_entry s id = some e → e.specialization_id = d →
        d ≠ 0 → (st = 0 ∨ st = 1 ∨ st = 2) →
        OrderedPositions (update_patient_priority s id st).2 d) := by
  refine ⟨?_, ?_, ?_, ?_⟩
  · intro p st r s' heq
    by_cases hst : st = 0 ∨ st = 1 ∨ st = 2
    · cases hdup : get_active_queue_entry s p d with
      | some e =>
        rw [add_duplicate_eq s p d st e hst hdup] at heq
        have hfst := congrArg Prod.fst heq
        simp at hfst
      | none =>
        cases hsp : find_specialization s d with
        | none =>
          rw [add_notfound_eq s p d st hst hdup hsp] at heq
          have hfst := congrArg Prod.fst heq
          simp at hfst
        | some sp =>
          by_cases hcap : sp.max_capacity ≤ (get_queue s d true).1.length
          · rw [add_capacity_eq s p d st sp hst hdup hsp hcap] at heq
            have hfst := congrArg Prod.fst heq
            simp at hfst
          · rw [add_success_eq s p d st sp hst hdup hsp hcap] at heq
            have hsnd : addSuccessState s p d st = s' := congrArg Prod.snd heq
            rw [← hsnd]
            exact ordered_addSuccessState s p d st h
    · rw [add_validation_eq s p d st hst] at heq
      have hfst := congrArg Prod.fst heq
      simp at hfst
  · intro id e hid hd hdne
    rw [serve_patient_some s id e hid]
    rw [hd, if_pos hdne]
    exact reorder_ordered _ d (wellFormed_serveWrite s id h).1
  · intro id e reason hid hd hdne
    rw [remove_patient_some s id reason e hid]
    rw [hd, if_pos hdne]
    exact reorder_ordered _ d (wellFormed_removeWrite s id reason h).1
  · intro id e st hid hd hdne hst
    rw [update_priority_some s id st e hst hid]
    rw [hd, if_pos hdne]
    exact reorder_ordered _ d (wellFormed_updateWrite s id st h).1

/-- A one-department, one-active-row state used to instantiate the
invariant theorems. -/
def exampleState : DBState :=
  { entries := [
      { queue_entry_id := 1
        patient_id := 5
        specialization_id := 1
        status := 0
        position := 1
        joined_at := 0
        served_at := none
        removed_at := none
        removal_reason := none
        estimated_wait_time := 0 }]
    specializations := [{ specialization_id := 1, max_capacity := 5, is_active := true }]
    patients := [5]
    nextId := 2
    now := 3 }

/-- Witness for C3: serving the single active row of `exampleState`
leaves department 1 with positions `1..N`. -/
theorem C3_ordering_invariant_witness :
    OrderedPositions (serve_patient exampleState 1).2 1 :=
  (C3_ordering_invariant exampleState 1 (by decide)).2.1 1
    { queue_entry_id := 1
      patient_id := 5
      specialization_id := 1
      status := 0
      position := 1
      joined_at := 0
      served_at := none
      removed_at := none
      removal_reason := none
      estimated_wait_time := 0 }
    (by decide) rfl (by decide)

end HospitalQueue

namespace HospitalQueue

/-! ## Terminal entries are freely overwritten (C2) -/

theorem lookupPatch_served_at (assign : List QueueEntry) (e : QueueEntry) :
    (lookupPatch assign e).served_at = e.served_at := by
  obtain ⟨p, hp⟩ := lookupPatch_eq_setPos assign e
  rw [hp]

theorem lookupPatch_removed_at (assign : List QueueEntry) (e : QueueEntry) :
    (lookupPatch assign e).removed_at = e.removed_at := by
  obtain ⟨p, hp⟩ := lookupPatch_eq_setPos assign e
  rw [hp]

theorem lookupPatch_removal_reason (assign : List QueueEntry) (e : QueueEntry) :
    (lookupPatch assign e).removal_reason = e.removal_reason := by
  obtain ⟨p, hp⟩ := lookupPatch_eq_setPos assign e
  rw [hp]

theorem lookupPatch_patient_id (assign : List QueueEntry) (e : QueueEntry) :
    (lookupPatch assign e).patient_id = e.patient_id := by
  obtain ⟨p, hp⟩ := lookupPatch_eq_setPos assign e
  rw [hp]

theorem lookupPatch_estimated_wait_time (assign : List QueueEntry) (e : QueueEntry) :
    (lookupPatch assign e).estimated_wait_time = e.estimated_wait_time := by
  obtain ⟨p, hp⟩ := lookupPatch_eq_setPos assign e
  rw [hp]

theorem find?_rowWrite (l : List QueueEntry) (id : Nat)
    (mod : QueueEntry → QueueEntry)
    (hmod : ∀ x, (mod x).queue_entry_id = x.queue_entry_id) (e : QueueEntry)
    (h : l.find? (fun x => x.queue_entry_id == id) = some e) :
    (l.map fun x => if x.queue_entry_id = id then mod x else x).find?
      (fun x => x.queue_entry_id == id) = some (mod e) := by
  rw [find?_id_map _
    (fun x => by by_cases hc : x.queue_entry_id = id <;> simp [hc, hmod]) l id, h]
  have he : e.queue_entry_id = id := by simpa using List.find?_some h
  show some (if e.queue_entry_id = id then mod e else e) = some (mod e)
  rw [if_pos he]

theorem nodupIds_serveWrite (s : DBState) (id : Nat) (h : NodupIds s) :
    NodupIds (serveWrite s id) :=
  nodup_ids_map_of_id s.entries _
    (fun e => by by_cases hc : e.queue_entry_id = id <;> simp [hc]) h

theorem nodupIds_removeWrite (s : DBState) (id : Nat) (reason : Option Nat)
    (h : NodupIds s) : NodupIds (removeWrite s id reason) :=
  nodup_ids_map_of_id s.entries _
    (fun e => by by_cases hc : e.queue_entry_id = id <;> simp [hc]) h

theorem nodupIds_updateWrite (s : DBState) (id st : Nat) (h : NodupIds s) :
    NodupIds (updateWrite s id st) :=
  nodup_ids_map_of_id s.entries _
    (fun e => by by_cases hc : e.queue_entry_id = id <;> simp [hc]) h

theorem get_queue_entry_serveWrite (s : DBState) (id : Nat) (e : QueueEntry)
    (h : get_queue_entry s id = some e) :
    get_queue_entry (serveWrite s id) id =
      some { e with served_at := some s.now, status := 3 } :=
  find?_rowWrite s.entries id
    (fun x => { x with served_at := some s.now, status := 3 })
    (fun x => rfl) e h

theorem get_queue_entry_removeWrite (s : DBState) (id : Nat)
    (reason : Option Nat) (e : QueueEntry) (h : get_queue_entry s id = some e) :
    get_queue_entry (removeWrite s id reason) id =
      some { e with removed_at := some s.now, removal_reason := reason } :=
  find?_rowWrite s.entries id
    (fun x => { x with removed_at := some s.now, removal_reason := reason })
    (fun x => rfl) e h

theorem get_queue_entry_updateWrite (s : DBState) (id st : Nat) (e : QueueEntry)
    (h : get_queue_entry s id = some e) :
    get_queue_entry (updateWrite s id st) id = some { e with status := st } :=
  find?_rowWrite s.entries id (fun x => { x with status := st })
    (fun x => rfl) e h

/-- C2 (amended): none of serve/remove/reprioritize checks for a
terminal state.  On an already-served or removed row, serve succeeds and
overwrites `served_at` (setting `status = 3` again), remove succeeds and
overwrites `removed_at`/`removal_reason` (leaving `served_at` in place,
so both terminal timestamps can be non-null at once), and reprioritize
succeeds and resets `status`; no `InvalidStateTransition` failure exists
in the code. -/
theorem C2_terminal_overwrite (s : DBState) (id : Nat) (e : QueueEntry)
    (reason : Option Nat) (st : Nat) (h : NodupIds s)
    (hfind : get_queue_entry s id = some e)
    (hterm : e.served_at ≠ none ∨ e.removed_at ≠ none)
    (hst : st = 0 ∨ st = 1 ∨ st = 2) :
    ((serve_patient s id).1 = true ∧
      ∃ e1, get_queue_entry (serve_patient s id).2 id = some e1 ∧
        e1.served_at = some s.now ∧ e1.status = 3) ∧
    ((remove_patient_from_queue s id reason).1 = true ∧
      ∃ e2, get_queue_entry (remove_patient_from_queue s id reason).2 id = some e2 ∧
        e2.removed_at = some s.now ∧ e2.removal_reason = reason ∧
        e2.served_at = e.served_at) ∧
    ((update_patient_priority s id st).1 = Except.ok true ∧
      ∃ e3, get_queue_entry (update_patient_priority s id st).2 id = some e3 ∧
        e3.status = st ∧ e3.served_at = e.served_at ∧
        e3.removed_at = e.removed_at) := by
  refine ⟨⟨?_, ?_⟩, ⟨?_, ?_⟩, ⟨?_, ?_⟩⟩
  · rw [serve_patient_some s id e hfind]
  · rw [serve_patient_some s id e hfind]
    by_cases hd : e.specialization_id ≠ 0
    · rw [if_pos hd]
      show ∃ e1, get_queue_entry
        (reorder_queue_positions (serveWrite s id) e.specialization_id) id =
          some e1 ∧ _
      unfold reorder_queue_positions
      rw [get_queue_entry_after_get_queue _ _ true id (nodupIds_serveWrite s id h),
        get_queue_entry_serveWrite s id e hfind]
      refine ⟨_, rfl, ?_, ?_⟩
      · show (patchFn _ _ _ _).served_at = some s.now
        rw [patchFn, lookupPatch_served_at]
      · show (patchFn _ _ _ _).status = 3
        rw [patchFn, lookupPatch_status]
    · rw [if_neg hd]
      exact ⟨_, get_queue_entry_serveWrite s id e hfind, rfl, rfl⟩
  · rw [remove_patient_some s id reason e hfind]
  · rw [remove_patient_some s id reason e hfind]
    by_cases hd : e.specialization_id ≠ 0
    · rw [if_pos hd]
      show ∃ e2, get_queue_entry
        (reorder_queue_positions (removeWrite s id reason)
          e.specialization_id) id = some e2 ∧ _
      unfold reorder_queue_positions
      rw [get_queue_entry_after_get_queue _ _ true id
          (nodupIds_removeWrite s id reason h),
        get_queue_entry_removeWrite s id reason e hfind]
      refine ⟨_, rfl, ?_, ?_, ?_⟩
      · show (patchFn _ _ _ _).removed_at = some s.now
        rw [patchFn, lookupPatch_removed_at]
      · show (patchFn _ _ _ _).removal_reason = reason
        rw [patchFn, lookupPatch_removal_reason]
      · show (patchFn _ _ _ _).served_at = e.served_at
        rw [patchFn, lookupPatch_served_at]
    · rw [if_neg hd]
      exact ⟨_, get_queue_entry_removeWrite s id reason e hfind, rfl, rfl, rfl⟩
  · rw [update_priority_some s id st e hst hfind]
  · rw [update_priority_some s id st e hst hfind]
    by_cases hd : e.specialization_id ≠ 0
    · rw [if_pos hd]
      show ∃ e3, get_queue_entry
        (reorder_queue_positions (updateWrite s id st) e.specialization_id) id =
          some e3 ∧ _
      unfold reorder_queue_positions
      rw [get_queue_entry_after_get_queue _ _ true id
          (nodupIds_updateWrite s id st h),
        get_queue_entry_updateWrite s id st e hfind]
      refine ⟨_, rfl, ?_, ?_, ?_⟩
      · show (patchFn _ _ _ _).status = st
        rw [patchFn, lookupPatch_status]
      · show (patchFn _ _ _ _).served_at = e.served_at
        rw [patchFn, lookupPatch_served_at]
      · show (patchFn _ _ _ _).removed_at = e.removed_at
        rw [patchFn, lookupPatch_removed_at]
    · rw [if_neg hd]
      exact ⟨_, get_queue_entry_updateWrite s id st e hfind, rfl, rfl, rfl⟩

end HospitalQueue

namespace HospitalQueue

instance nodupIdsDecidable (s : DBState) : Decidable (NodupIds s) := by
  unfold NodupIds
  infer_instance

/-- A state whose only row is already `Served` (`status = 3`,
`served_at = some 2`). -/
def servedState : DBState :=
  { entries := [
      { queue_entry_id := 1, patient_id := 5, specialization_id := 1, status := 3, position := 1, joined_at := 0, served_at := some 2, removed_at := none, removal_reason := none, estimated_wait_time := 0 }]
    specializations := [{ specialization_id := 1, max_capacity := 5, is_active := true }]
    patients := [5]
    nextId := 2
    now := 5 }

/-- C2 counterexample: serving an already-served row does not fail with
an `InvalidStateTransition` error — it returns `true` and overwrites
`served_at` (from `some 2` to `some 5`); removing the same served row
also returns `true` and leaves both `served_at` and `removed_at`
non-null at once. -/
theorem C2_terminal_counterexample :
    (serve_patient servedState 1).1 = true ∧
    get_queue_entry (serve_patient servedState 1).2 1 =
      some { queue_entry_id := 1, patient_id := 5, specialization_id := 1, status := 3, position := 1, joined_at := 0, served_at := some 5, removed_at := none, removal_reason := none, estimated_wait_time := 0 } ∧
    ¬ get_queue_entry (serve_patient servedState 1).2 1 =
        get_queue_entry servedState 1 ∧
    (remove_patient_from_queue servedState 1 none).1 = true ∧
    get_queue_entry (remove_patient_from_queue servedState 1 none).2 1 =
      some { queue_entry_id := 1, patient_id := 5, specialization_id := 1, status := 3, position := 1, joined_at := 0, served_at := some 2, removed_at := some 5, removal_reason := none, estimated_wait_time := 0 } := by
  decide

/-- Witness for the amended C2 at `servedState`. -/
theorem C2_terminal_overwrite_witness :
    ((serve_patient servedState 1).1 = true ∧
      ∃ e1, get_queue_entry (serve_patient servedState 1).2 1 = some e1 ∧
        e1.served_at = some 5 ∧ e1.status = 3) ∧
    ((remove_patient_from_queue servedState 1 none).1 = true ∧
      ∃ e2, get_queue_entry (remove_patient_from_queue servedState 1 none).2 1 =
          some e2 ∧
        e2.removed_at = some 5 ∧ e2.removal_reason = none ∧
        e2.served_at = some 2) ∧
    ((update_patient_priority servedState 1 0).1 = Except.ok true ∧
      ∃ e3, get_queue_entry (update_patient_priority servedState 1 0).2 1 =
          some e3 ∧
        e3.status = 0 ∧ e3.served_at = some 2 ∧ e3.removed_at = none) :=
  C2_terminal_overwrite servedState 1
    { queue_entry_id := 1, patient_id := 5, specialization_id := 1, status := 3, position := 1, joined_at := 0, served_at := some 2, removed_at := none, removal_reason := none, estimated_wait_time := 0 }
    none 0 (by decide) (by decide) (by decide) (by decide)

end HospitalQueue

namespace HospitalQueue

/-! ## Capacity (C1) and duplicate rejection (C4) -/

/-- Number of active rows of one `(patient, specialization)` pair. -/
def activePairCount (s : DBState) (p d : Nat) : Nat :=
  (s.entries.filter fun e =>
    e.patient_id == p && e.specialization_id == d && activeRow e).length

theorem active_pair_filter_nil (s : DBState) (p d : Nat)
    (h : get_active_queue_entry s p d = none) :
    s.entries.filter (fun e =>
      e.patient_id == p && e.specialization_id == d && activeRow e) = [] := by
  unfold get_active_queue_entry at h
  have h1 : List.insertionSort joinedLater
      (s.entries.filter fun e =>
        e.patient_id == p && e.specialization_id == d && activeRow e) = [] := by
    rwa [List.head?_eq_none_iff] at h
  have h2 := List.perm_insertionSort joinedLater
    (s.entries.filter fun e =>
      e.patient_id == p && e.specialization_id == d && activeRow e)
  rw [h1] at h2
  exact h2.symm.eq_nil

theorem activePairCount_get_queue (s : DBState) (d : Nat) (b : Bool)
    (p d' : Nat) (h : NodupIds s) :
    activePairCount (get_queue s d b).2 p d' = activePairCount s p d' := by
  unfold activePairCount
  rw [get_queue_snd_entries s d b h,
    filter_map_comm (patchFn s d b) _
      (fun e => by
        unfold patchFn
        rw [lookupPatch_patient_id, lookupPatch_specialization_id,
          lookupPatch_activeRow]) s.entries,
    List.length_map]

/-- C1: a join into a department whose active count already equals its
`max_capacity` is rejected with `CapacityExceeded` and, on an
invariant-satisfying state, changes nothing; and a join can never push
the active count of a department beyond its `max_capacity`. -/
theorem C1_capacity (s : DBState) (p d st : Nat) (sp : Specialization)
    (h : WellFormed s)
    (hsp : find_specialization s d = some sp)
    (hst : st = 0 ∨ st = 1 ∨ st = 2)
    (hdup : get_active_queue_entry s p d = none) :
    (activeCount s d = sp.max_capacity → OrderedPositions s d →
      add_patient_to_queue s p d st =
        (Except.error (QueueError.capacityExceeded sp.max_capacity), s)) ∧
    (∀ r s', activeCount s d ≤ sp.max_capacity →
      add_patient_to_queue s p d st = (r, s') →
      activeCount s' d ≤ sp.max_capacity) := by
  constructor
  · intro hful hord
    have hlen : (get_queue s d true).1.length = activeCount s d :=
      get_queue_fst_length s d true
    have hcap : sp.max_capacity ≤ (get_queue s d true).1.length := by
      omega
    rw [add_capacity_eq s p d st sp hst hdup hsp hcap,
      get_queue_id_of_ordered s d h.1 hord]
  · intro r s' hle heq
    have hlen : (get_queue s d true).1.length = activeCount s d :=
      get_queue_fst_length s d true
    by_cases hcap : sp.max_capacity ≤ (get_queue s d true).1.length
    · rw [add_capacity_eq s p d st sp hst hdup hsp hcap] at heq
      have hsnd : (get_queue s d true).2 = s' := congrArg Prod.snd heq
      rw [← hsnd, activeCount_get_queue s d true d h.1]
      exact hle
    · rw [add_success_eq s p d st sp hst hdup hsp hcap] at heq
      have hsnd : addSuccessState s p d st = s' := congrArg Prod.snd heq
      have hwf2 : WellFormed (calculate_estimated_wait_time (get_queue s d true).2
          d st ((get_queue s d true).1.length + 1)).2 :=
        wellFormed_get_queue _ d true (wellFormed_get_queue s d true h)
      have hwf3 : WellFormed
          { (calculate_estimated_wait_time (get_queue s d true).2 d st
              ((get_queue s d true).1.length + 1)).2 with
            entries := (calculate_estimated_wait_time (get_queue s d true).2 d st
              ((get_queue s d true).1.length + 1)).2.entries ++ [newEntry s p d st]
            nextId := (calculate_estimated_wait_time (get_queue s d true).2 d st
              ((get_queue s d true).1.length + 1)).2.nextId + 1
            now := (calculate_estimated_wait_time (get_queue s d true).2 d st
              ((get_queue s d true).1.length + 1)).2.now + 1 } :=
        wellFormed_append_entry _ (newEntry s p d st) rfl rfl hwf2
      have hcnt3 : activeCount (addSuccessState s p d st) d =
          activeCount s d + 1 := by
        unfold addSuccessState reorder_queue_positions
        rw [activeCount_get_queue _ d true d hwf3.1]
        show (rowsFor _ d true).length = activeCount s d + 1
        unfold rowsFor
        show (List.filter _ (_ ++ [newEntry s p d st])).length = _
        rw [List.filter_append]
        have hnew : (List.filter
            (fun e => e.specialization_id == d && (!true || activeRow e))
            [newEntry s p d st]) = [newEntry s p d st] := by
          simp [newEntry, activeRow]
        rw [hnew, List.length_append]
        have : activeCount (calculate_estimated_wait_time (get_queue s d true).2
            d st ((get_queue s d true).1.length + 1)).2 d = activeCount s d := by
          rw [calculate_snd, activeCount_get_queue _ d true d
            (wellFormed_get_queue s d true h).1,
            activeCount_get_queue s d true d h.1]
        exact congrArg (· + 1) this
      rw [← hsnd, hcnt3]
      omega

/-- A department of `max_capacity = 1` that is already full. -/
def fullState : DBState :=
  { entries := [
      { queue_entry_id := 1, patient_id := 5, specialization_id := 1, status := 0, position := 1, joined_at := 0, served_at := none, removed_at := none, removal_reason := none, estimated_wait_time := 0 }]
    specializations := [{ specialization_id := 1, max_capacity := 1, is_active := true }]
    patients := [5, 6]
    nextId := 2
    now := 3 }

/-- Witness for C1 on a department already at capacity 1. -/
theorem C1_capacity_witness :
    add_patient_to_queue fullState 6 1 0 =
      (Except.error (QueueError.capacityExceeded 1), fullState) ∧
    activeCount (add_patient_to_queue fullState 6 1 0).2 1 ≤ 1 := by
  constructor
  · exact (C1_capacity fullState 6 1 0
      { specialization_id := 1, max_capacity := 1, is_active := true }
      (by decide) (by decide) (by decide) (by decide)).1 (by decide) (by decide)
  · exact (C1_capacity fullState 6 1 0
      { specialization_id := 1, max_capacity := 1, is_active := true }
      (by decide) (by decide) (by decide) (by decide)).2
      (add_patient_to_queue fullState 6 1 0).1
      (add_patient_to_queue fullState 6 1 0).2 (by decide) rfl

end HospitalQueue

namespace HospitalQueue

/-- C4: a join for a `(patient, department)` pair that already has an
active entry fails with `DuplicateActiveEntry` carrying that entry's
stored position and leaves the state untouched; and a join never raises
the active-entry count of a pair above one. -/
theorem C4_duplicate_rejected (s : DBState) (p d st : Nat)
    (hst : st = 0 ∨ st = 1 ∨ st = 2) :
    (∀ e, get_active_queue_entry s p d = some e →
      add_patient_to_queue s p d st =
        (Except.error (QueueError.duplicateActiveEntry e.position), s)) ∧
    (∀ r s', WellFormed s → activePairCount s p d ≤ 1 →
      add_patient_to_queue s p d st = (r, s') →
      activePairCount s' p d ≤ 1) := by
  constructor
  · intro e hdup
    exact add_duplicate_eq s p d st e hst hdup
  · intro r s' h hle heq
    cases hdup : get_active_queue_entry s p d with
    | some e =>
      rw [add_duplicate_eq s p d st e hst hdup] at heq
      have hsnd : s = s' := congrArg Prod.snd heq
      rw [← hsnd]
      exact hle
    | none =>
      have hnil := active_pair_filter_nil s p d hdup
      cases hsp : find_specialization s d with
      | none =>
        rw [add_notfound_eq s p d st hst hdup hsp] at heq
        have hsnd : (get_queue s d true).2 = s' := congrArg Prod.snd heq
        rw [← hsnd, activePairCount_get_queue s d true p d h.1]
        exact hle
      | some sp =>
        by_cases hcap : sp.max_capacity ≤ (get_queue s d true).1.length
        · rw [add_capacity_eq s p d st sp hst hdup hsp hcap] at heq
          have hsnd : (get_queue s d true).2 = s' := congrArg Prod.snd heq
          rw [← hsnd, activePairCount_get_queue s d true p d h.1]
          exact hle
        · rw [add_success_eq s p d st sp hst hdup hsp hcap] at heq
          have hsnd : addSuccessState s p d st = s' := congrArg Prod.snd heq
          have hwf2 : WellFormed (calculate_estimated_wait_time
              (get_queue s d true).2 d st
              ((get_queue s d true).1.length + 1)).2 :=
            wellFormed_get_queue _ d true (wellFormed_get_queue s d true h)
          have hwf3 : WellFormed
              { (calculate_estimated_wait_time (get_queue s d true).2 d st
                  ((get_queue s d true).1.length + 1)).2 with
                entries := (calculate_estimated_wait_time (get_queue s d true).2
                  d st ((get_queue s d true).1.length + 1)).2.entries ++
                  [newEntry s p d st]
                nextId := (calculate_estimated_wait_time (get_queue s d true).2
                  d st ((get_queue s d true).1.length + 1)).2.nextId + 1
                now := (calculate_estimated_wait_time (get_queue s d true).2 d st
                  ((get_queue s d true).1.length + 1)).2.now + 1 } :=
            wellFormed_append_entry _ (newEntry s p d st) rfl rfl hwf2
          have hpair2 : activePairCount (calculate_estimated_wait_time
              (get_queue s d true).2 d st
              ((get_queue s d true).1.length + 1)).2 p d = 0 := by
            rw [calculate_snd, activePairCount_get_queue _ d true p d
                (wellFormed_get_queue s d true h).1,
              activePairCount_get_queue s d true p d h.1]
            unfold activePairCount
            rw [hnil]
            rfl
          have hcnt : activePairCount (addSuccessState s p d st) p d = 1 := by
            unfold addSuccessState reorder_queue_positions
            rw [activePairCount_get_queue _ d true p d hwf3.1]
            show (List.filter _ (_ ++ [newEntry s p d st])).length = 1
            rw [List.filter_append]
            have hnew : (List.filter (fun e =>
                e.patient_id == p && e.specialization_id == d && activeRow e)
                [newEntry s p d st]) = [newEntry s p d st] := by
              simp [newEntry, activeRow]
            rw [hnew, List.length_append]
            have h0 : (List.filter (fun e =>
                e.patient_id == p && e.specialization_id == d && activeRow e)
                (calculate_estimated_wait_time (get_queue s d true).2 d st
                  ((get_queue s d true).1.length + 1)).2.entries).length = 0 :=
              hpair2
            rw [h0]
            rfl
          rw [← hsnd, hcnt]

/-- Witness for C4: re-joining patient 5 in department 1 of
`exampleState` is rejected with the existing position 1. -/
theorem C4_duplicate_rejected_witness :
    add_patient_to_queue exampleState 5 1 0 =
      (Except.error (QueueError.duplicateActiveEntry 1), exampleState) ∧
    activePairCount (add_patient_to_queue exampleState 5 1 0).2 5 1 ≤ 1 := by
  constructor
  · exact (C4_duplicate_rejected exampleState 5 1 0 (by decide)).1
      { queue_entry_id := 1, patient_id := 5, specialization_id := 1, status := 0, position := 1, joined_at := 0, served_at := none, removed_at := none, removal_reason := none, estimated_wait_time := 0 }
      (by decide)
  · exact (C4_duplicate_rejected exampleState 5 1 0 (by decide)).2
      (add_patient_to_queue exampleState 5 1 0).1
      (add_patient_to_queue exampleState 5 1 0).2
      (by decide) (by decide) rfl

end HospitalQueue

namespace HospitalQueue

theorem get_queue_entry_of_mem (s : DBState) (e : QueueEntry)
    (h : NodupIds s) (he : e ∈ s.entries) :
    get_queue_entry s e.queue_entry_id = some e := by
  unfold get_queue_entry
  cases hf : s.entries.find? (fun x => x.queue_entry_id == e.queue_entry_id) with
  | none =>
    rw [List.find?_eq_none] at hf
    exact absurd (by simp : (e.queue_entry_id == e.queue_entry_id) = true)
      (hf e he)
  | some x =>
    have hxmem : x ∈ s.entries := List.mem_of_find?_eq_some hf
    have hxid : x.queue_entry_id = e.queue_entry_id := by
      simpa using List.find?_some hf
    rw [List.inj_on_of_nodup_map h hxmem he hxid]

theorem mem_sortedActive_spec (s : DBState) (d : Nat) (e : QueueEntry)
    (he : e ∈ sortedActive s d) :
    e ∈ s.entries ∧ e.specialization_id = d ∧ activeRow e = true := by
  have hrow : e ∈ rowsFor s d true := (sortRows_perm _).mem_iff.mp he
  have hmem : e ∈ s.entries := List.mem_of_mem_filter hrow
  have hpred := List.of_mem_filter hrow
  simp only [Bool.and_eq_true, beq_iff_eq] at hpred
  exact ⟨hmem, hpred.1, by simpa using hpred.2⟩

/-- C6: `get_next_patient` returns `None` (not an error) on a
department with no active rows; otherwise it serves exactly the head of
the (priority desc, joined_at asc) ordering: the returned entry carries
position 1, dominates every active row of the department, its row is
marked served (`served_at = now`, `status = 3`), and the remaining
active rows are renumbered `1..N`. -/
theorem C6_serve_next (s : DBState) (d : Nat) (h : WellFormed s) :
    (activeRows s d = [] → get_next_patient s d = (none, s)) ∧
    (∀ next rest, sortedActive s d = next :: rest → d ≠ 0 →
      (get_next_patient s d).1 = some { next with position := 1 } ∧
      (∀ e ∈ activeRows s d, e.status < next.status ∨
        (next.status = e.status ∧ next.joined_at ≤ e.joined_at)) ∧
      (∃ e', get_queue_entry (get_next_patient s d).2 next.queue_entry_id =
          some e' ∧ e'.served_at = some s.now ∧ e'.status = 3) ∧
      OrderedPositions (get_next_patient s d).2 d) := by
  constructor
  · intro hnil
    unfold get_next_patient get_queue
    rw [show rowsFor s d true = [] from hnil]
    rfl
  · intro next rest hsorted hdne
    have hfst : (get_queue s d true).1 =
        { next with position := 1 } :: withPositions 2 rest := by
      show withPositions 1 (sortRows (rowsFor s d true)) = _
      rw [show sortRows (rowsFor s d true) = next :: rest from hsorted]
      rfl
    obtain ⟨hmem, hspec, hactive⟩ :=
      mem_sortedActive_spec s d next (by rw [hsorted]; exact List.mem_cons_self _ _)
    have hns : NodupIds (get_queue s d true).2 := nodupIds_get_queue s d true h.1
    have hlook : get_queue_entry (get_queue s d true).2 next.queue_entry_id =
        some (patchFn s d true next) := by
      rw [get_queue_entry_after_get_queue s d true next.queue_entry_id h.1,
        get_queue_entry_of_mem s next h.1 hmem]
      rfl
    have hnext_eq : get_next_patient s d =
        (some { next with position := 1 },
         (serve_patient (get_queue s d true).2
           ({ next with position := 1 } : QueueEntry).queue_entry_id).2) := by
      unfold get_next_patient
      rw [hfst]
    have hserve := serve_patient_some (get_queue s d true).2 next.queue_entry_id
      (patchFn s d true next) hlook
    have hpspec : (patchFn s d true next).specialization_id = d := by
      rw [patchFn, lookupPatch_specialization_id, hspec]
    refine ⟨?_, ?_, ?_, ?_⟩
    · rw [hnext_eq]
    · intro e he
      exact head_sortRows_queueBefore (rowsFor s d true) next rest hsorted e he
    · rw [hnext_eq]
      show ∃ e', get_queue_entry (serve_patient (get_queue s d true).2
        next.queue_entry_id).2 next.queue_entry_id = some e' ∧ _
      rw [hserve]
      rw [hpspec] at hserve ⊢
      rw [if_pos hdne]
      show ∃ e', get_queue_entry
        (reorder_queue_positions (serveWrite (get_queue s d true).2
          next.queue_entry_id) d) next.queue_entry_id = some e' ∧ _
      unfold reorder_queue_positions
      rw [get_queue_entry_after_get_queue _ _ true _
          (nodupIds_serveWrite _ _ hns),
        get_queue_entry_serveWrite _ _ _ hlook]
      refine ⟨_, rfl, ?_, ?_⟩
      · show (patchFn _ _ _ _).served_at = some s.now
        rw [patchFn, lookupPatch_served_at]
        rfl
      · show (patchFn _ _ _ _).status = 3
        rw [patchFn, lookupPatch_status]
    · rw [hnext_eq]
      show OrderedPositions (serve_patient (get_queue s d true).2
        next.queue_entry_id).2 d
      rw [hserve, hpspec, if_pos hdne]
      exact reorder_ordered _ d (nodupIds_serveWrite _ _ hns)

end HospitalQueue

namespace HospitalQueue

/-- Two `Normal` rows in department 1; patient 5 joined first. -/
def twoNormalState : DBState :=
  { entries := [
      { queue_entry_id := 1, patient_id := 5, specialization_id := 1, status := 0, position := 1, joined_at := 0, served_at := none, removed_at := none, removal_reason := none, estimated_wait_time := 0 },
      { queue_entry_id := 2, patient_id := 6, specialization_id := 1, status := 0, position := 2, joined_at := 1, served_at := none, removed_at := none, removal_reason := none, estimated_wait_time := 15 }]
    specializations := [{ specialization_id := 1, max_capacity := 5, is_active := true }]
    patients := [5, 6]
    nextId := 3
    now := 4 }

/-- Witness for C6 (scenario C): with two Normal rows the earlier join
is served and the remaining row ends at position 1. -/
theorem C6_serve_next_witness :
    (get_next_patient twoNormalState 1).1 =
      some { queue_entry_id := 1, patient_id := 5, specialization_id := 1, status := 0, position := 1, joined_at := 0, served_at := none, removed_at := none, removal_reason := none, estimated_wait_time := 0 } ∧
    (∃ e', get_queue_entry (get_next_patient twoNormalState 1).2 1 = some e' ∧
      e'.served_at = some 4 ∧ e'.status = 3) ∧
    OrderedPositions (get_next_patient twoNormalState 1).2 1 ∧
    get_queue_entry (get_next_patient twoNormalState 1).2 2 =
      some { queue_entry_id := 2, patient_id := 6, specialization_id := 1, status := 0, position := 1, joined_at := 1, served_at := none, removed_at := none, removal_reason := none, estimated_wait_time := 15 } := by
  have hmain := (C6_serve_next twoNormalState 1 (by decide)).2
    { queue_entry_id := 1, patient_id := 5, specialization_id := 1, status := 0, position := 1, joined_at := 0, served_at := none, removed_at := none, removal_reason := none, estimated_wait_time := 0 }
    [{ queue_entry_id := 2, patient_id := 6, specialization_id := 1, status := 0, position := 2, joined_at := 1, served_at := none, removed_at := none, removal_reason := none, estimated_wait_time := 15 }]
    (by decide) (by decide)
  exact ⟨hmain.1, hmain.2.2.1, hmain.2.2.2, by decide⟩

end HospitalQueue

namespace HospitalQueue

/-! ## Reprioritize frame (C9) -/

theorem patchFn_eq_self_of_not_selected (s : DBState) (d : Nat) (b : Bool)
    (x : QueueEntry) (h : NodupIds s) (hx : x ∈ s.entries)
    (hpred : ¬ (x.specialization_id == d && (!b || activeRow x)) = true) :
    patchFn s d b x = x := by
  unfold patchFn lookupPatch
  cases hf : (withPositions 1 (sortRows (rowsFor s d b))).find?
      (fun y => y.queue_entry_id == x.queue_entry_id) with
  | none => rfl
  | some y =>
    exfalso
    have hymem : y ∈ withPositions 1 (sortRows (rowsFor s d b)) :=
      List.mem_of_find?_eq_some hf
    have hyid : y.queue_entry_id = x.queue_entry_id := by
      simpa using List.find?_some hf
    have hyin : y.queue_entry_id ∈
        (sortRows (rowsFor s d b)).map (fun e => e.queue_entry_id) := by
      rw [← withPositions_map_queue_entry_id 1]
      exact List.mem_map_of_mem _ hymem
    rw [(sortRows_perm (rowsFor s d b)).map (fun e => e.queue_entry_id)
      |>.mem_iff] at hyin
    obtain ⟨z, hz, hzid⟩ := List.mem_map.mp hyin
    have hzent : z ∈ s.entries := List.mem_of_mem_filter hz
    have hzx : z = x :=
      List.inj_on_of_nodup_map h hzent hx (by rw [hzid, hyid])
    have hz' : z ∈ List.filter
        (fun e => e.specialization_id == d && (!b || activeRow e)) s.entries := hz
    have hzp := List.of_mem_filter hz'
    rw [hzx] at hzp
    exact hpred hzp

theorem get_queue_entry_rowWrite_other (s : DBState) (id : Nat)
    (mod : QueueEntry → QueueEntry)
    (hmod : ∀ y, (mod y).queue_entry_id = y.queue_entry_id)
    (x : QueueEntry) (h : NodupIds s) (hx : x ∈ s.entries)
    (hne : x.queue_entry_id ≠ id) :
    (s.entries.map fun y => if y.queue_entry_id = id then mod y else y).find?
      (fun y => y.queue_entry_id == x.queue_entry_id) = some x := by
  rw [find?_id_map _
    (fun y => by by_cases hc : y.queue_entry_id = id <;> simp [hc, hmod]) _ _]
  have hself := get_queue_entry_of_mem s x h hx
  unfold get_queue_entry at hself
  rw [hself]
  show some (if x.queue_entry_id = id then mod x else x) = some x
  rw [if_neg hne]

/-- C9: on an active entry and a waiting-tier status,
`update_patient_priority` changes only that entry's `status` (priority)
and the positions of rows in the same department: the target keeps its
`estimated_wait_minutes`, `joined_at`, `served_at`, `removed_at`,
`patient_id` and `department_id`; every other row keeps every field
except possibly `position`, and rows of other departments are untouched
entirely. -/
theorem C9_reprioritize_frame (s : DBState) (id st d : Nat) (e : QueueEntry)
    (h : NodupIds s)
    (hst : st = 0 ∨ st = 1 ∨ st = 2)
    (hfind : get_queue_entry s id = some e)
    (hact : activeRow e = true)
    (hd : e.specialization_id = d) (hdne : d ≠ 0) :
    (update_patient_priority s id st).1 = Except.ok true ∧
    (∃ e', get_queue_entry (update_patient_priority s id st).2 id = some e' ∧
      e'.status = st ∧
      e'.estimated_wait_time = e.estimated_wait_time ∧
      e'.joined_at = e.joined_at ∧ e'.served_at = e.served_at ∧
      e'.removed_at = e.removed_at ∧ e'.patient_id = e.patient_id ∧
      e'.specialization_id = e.specialization_id) ∧
    (∀ x ∈ s.entries, x.queue_entry_id ≠ id →
      ∃ x', get_queue_entry (update_patient_priority s id st).2
          x.queue_entry_id = some x' ∧
        x'.status = x.status ∧ x'.patient_id = x.patient_id ∧
        x'.specialization_id = x.specialization_id ∧
        x'.joined_at = x.joined_at ∧ x'.served_at = x.served_at ∧
        x'.removed_at = x.removed_at ∧ x'.removal_reason = x.removal_reason ∧
        x'.estimated_wait_time = x.estimated_wait_time ∧
        (x.specialization_id ≠ d → x' = x)) := by
  have hupd := update_priority_some s id st e hst hfind
  have hnu : NodupIds (updateWrite s id st) := nodupIds_updateWrite s id st h
  refine ⟨by rw [hupd], ?_, ?_⟩
  · rw [hupd, hd, if_pos hdne]
    show ∃ e', get_queue_entry
      (reorder_queue_positions (updateWrite s id st) d) id = some e' ∧ _
    unfold reorder_queue_positions
    rw [get_queue_entry_after_get_queue _ _ true id hnu,
      get_queue_entry_updateWrite s id st e hfind]
    refine ⟨_, rfl, ?_, ?_, ?_, ?_, ?_, ?_, ?_⟩
    · show (patchFn _ _ _ _).status = st
      rw [patchFn, lookupPatch_status]
    · show (patchFn _ _ _ _).estimated_wait_time = e.estimated_wait_time
      rw [patchFn, lookupPatch_estimated_wait_time]
    · show (patchFn _ _ _ _).joined_at = e.joined_at
      rw [patchFn, lookupPatch_joined_at]
    · show (patchFn _ _ _ _).served_at = e.served_at
      rw [patchFn, lookupPatch_served_at]
    · show (patchFn _ _ _ _).removed_at = e.removed_at
      rw [patchFn, lookupPatch_removed_at]
    · show (patchFn _ _ _ _).patient_id = e.patient_id
      rw [patchFn, lookupPatch_patient_id]
    · show (patchFn _ _ _ _).specialization_id = d
      rw [patchFn, lookupPatch_specialization_id]
      exact hd
  · intro x hx hne
    rw [hupd, hd, if_pos hdne]
    show ∃ x', get_queue_entry
      (reorder_queue_positions (updateWrite s id st) d) x.queue_entry_id =
        some x' ∧ _
    unfold reorder_queue_positions
    rw [get_queue_entry_after_get_queue _ _ true x.queue_entry_id hnu]
    have hfx : get_queue_entry (updateWrite s id st) x.queue_entry_id = some x :=
      get_queue_entry_rowWrite_other s id (fun y => { y with status := st })
        (fun y => rfl) x h hx hne
    rw [hfx]
    refine ⟨_, rfl, ?_, ?_, ?_, ?_, ?_, ?_, ?_, ?_, ?_⟩
    · show (patchFn _ _ _ _).status = x.status
      rw [patchFn, lookupPatch_status]
    · show (patchFn _ _ _ _).patient_id = x.patient_id
      rw [patchFn, lookupPatch_patient_id]
    · show (patchFn _ _ _ _).specialization_id = x.specialization_id
      rw [patchFn, lookupPatch_specialization_id]
    · show (patchFn _ _ _ _).joined_at = x.joined_at
      rw [patchFn, lookupPatch_joined_at]
    · show (patchFn _ _ _ _).served_at = x.served_at
      rw [patchFn, lookupPatch_served_at]
    · show (patchFn _ _ _ _).removed_at = x.removed_at
      rw [patchFn, lookupPatch_removed_at]
    · show (patchFn _ _ _ _).removal_reason = x.removal_reason
      rw [patchFn, lookupPatch_removal_reason]
    · show (patchFn _ _ _ _).estimated_wait_time = x.estimated_wait_time
      rw [patchFn, lookupPatch_estimated_wait_time]
    · intro hxd
      show patchFn (updateWrite s id st) d true x = x
      apply patchFn_eq_self_of_not_selected _ d true x hnu
      · show x ∈ s.entries.map fun y =>
          if y.queue_entry_id = id then { y with status := st } else y
        have : (if x.queue_entry_id = id then
            ({ x with status := st } : QueueEntry) else x) = x := by
          rw [if_neg hne]
        rw [← this]
        exact List.mem_map_of_mem _ hx
      · simp [hxd]

/-- Witness for C9: raising patient 6 of `twoNormalState` to
`SuperUrgent` keeps every non-position field of both rows. -/
theorem C9_reprioritize_frame_witness :
    (update_patient_priority twoNormalState 2 2).1 = Except.ok true ∧
    (∃ e', get_queue_entry (update_patient_priority twoNormalState 2 2).2 2 =
        some e' ∧
      e'.status = 2 ∧ e'.estimated_wait_time = 15 ∧ e'.joined_at = 1 ∧
      e'.served_at = none ∧ e'.removed_at = none ∧ e'.patient_id = 6 ∧
      e'.specialization_id = 1) ∧
    (∃ x', get_queue_entry (update_patient_priority twoNormalState 2 2).2 1 =
        some x' ∧
      x'.status = 0 ∧ x'.estimated_wait_time = 0 ∧ x'.joined_at = 0) := by
  have hmain := C9_reprioritize_frame twoNormalState 2 2 1
    { queue_entry_id := 2, patient_id := 6, specialization_id := 1, status := 0, position := 2, joined_at := 1, served_at := none, removed_at := none, removal_reason := none, estimated_wait_time := 15 }
    (by decide) (by decide) (by decide) (by decide) (by decide) (by decide)
  obtain ⟨x', hx1, hxstatus, hxpat, hxspec, hxjoin, hxserved, hxrem, hxreason,
      hxest, hxother⟩ := hmain.2.2
    { queue_entry_id := 1, patient_id := 5, specialization_id := 1, status := 0, position := 1, joined_at := 0, served_at := none, removed_at := none, removal_reason := none, estimated_wait_time := 0 }
    (by decide) (by decide)
  exact ⟨hmain.1, hmain.2.1, ⟨x', hx1, hxstatus, hxest, hxjoin⟩⟩

end HospitalQueue

namespace HospitalQueue

/-! ## Full-queue view ordering (C8) and its position clobbering (C10) -/

theorem mem_withPositions (l : List QueueEntry) (i : Nat) (b' : QueueEntry)
    (hb : b' ∈ withPositions i l) : ∃ b ∈ l, ∃ p, b' = { b with position := p } := by
  induction l generalizing i with
  | nil => cases hb
  | cons a t ih =>
    rcases List.mem_cons.mp hb with rfl | hmem
    · exact ⟨a, List.mem_cons_self a t, i, rfl⟩
    · obtain ⟨b, hbm, p, rfl⟩ := ih (i + 1) hmem
      exact ⟨b, List.mem_cons_of_mem a hbm, p, rfl⟩

theorem pairwise_withPositions (l : List QueueEntry) (i : Nat)
    (h : List.Pairwise queueBefore l) :
    List.Pairwise queueBefore (withPositions i l) := by
  induction l generalizing i with
  | nil => exact List.Pairwise.nil
  | cons a t ih =>
    rw [List.pairwise_cons] at h
    refine List.pairwise_cons.mpr ⟨?_, ih (i + 1) h.2⟩
    intro b' hb'
    obtain ⟨b, hbm, p, rfl⟩ := mem_withPositions t (i + 1) b' hb'
    exact h.1 b hbm

theorem sorted_filter_status3_prefix (l : List QueueEntry)
    (hs : List.Pairwise queueBefore l) (hb : ∀ e ∈ l, e.status ≤ 3) :
    l = (l.filter fun e => e.status == 3) ++
      (l.filter fun e => !(e.status == 3)) := by
  induction l with
  | nil => rfl
  | cons a t ih =>
    rw [List.pairwise_cons] at hs
    have hble : ∀ e ∈ t, e.status ≤ 3 := fun e he =>
      hb e (List.mem_cons_of_mem a he)
    by_cases ha : a.status = 3
    · have h1 : ((a.status == 3) : Bool) = true := by simp [ha]
      simp only [List.filter_cons, h1, Bool.not_true, if_true, if_false]
      rw [List.cons_append]
      exact congrArg (List.cons a) (ih hs.2 hble)
    · have halt : a.status < 3 := by
        have := hb a (List.mem_cons_self a t)
        omega
    -- every later element ranks at or below `a`, hence below 3
      have hnone : t.filter (fun e => e.status == 3) = [] := by
        rw [List.filter_eq_nil_iff]
        intro e he
        have hq := hs.1 e he
        rcases hq with hlt | ⟨heq, _⟩ <;> simp <;> omega
      have hall : t.filter (fun e => !(e.status == 3)) = t := by
        rw [List.filter_eq_self]
        intro e he
        have hq := hs.1 e he
        rcases hq with hlt | ⟨heq, _⟩ <;> simp <;> omega
      have h1 : ((a.status == 3) : Bool) = false := by simp [ha]
      simp only [List.filter_cons, h1, Bool.not_false, if_true, if_false]
      rw [hnone, hall]
      rfl

/-- C8 (amended): `get_queue(d, active_only=false)` returns all of the
department's rows sorted by `status` descending, then `joined_at`
ascending.  Consequently `Served` rows (`status = 3`) come FIRST, before
every active row, not appended after them; removed rows keep their
waiting-tier status and are interleaved with the active rows by that
status. -/
theorem C8_get_queue_order (s : DBState) (d : Nat)
    (hb : ∀ e ∈ s.entries, e.status ≤ 3) :
    List.Pairwise queueBefore (get_queue s d false).1 ∧
    ((get_queue s d false).1.map fun e => e.queue_entry_id).Perm
      ((rowsFor s d false).map fun e => e.queue_entry_id) ∧
    (get_queue s d false).1 =
      ((get_queue s d false).1.filter fun e => e.status == 3) ++
      ((get_queue s d false).1.filter fun e => !(e.status == 3)) := by
  have hres : (get_queue s d false).1 =
      withPositions 1 (sortRows (rowsFor s d false)) := rfl
  have hpw : List.Pairwise queueBefore (get_queue s d false).1 := by
    rw [hres]
    exact pairwise_withPositions _ 1 (sortRows_pairwise _)
  refine ⟨hpw, ?_, ?_⟩
  · rw [hres, withPositions_map_queue_entry_id]
    exact (sortRows_perm _).map _
  · apply sorted_filter_status3_prefix _ hpw
    intro e he
    rw [hres] at he
    obtain ⟨b, hbm, p, rfl⟩ := mem_withPositions _ 1 e he
    have hbent : b ∈ s.entries :=
      List.mem_of_mem_filter ((sortRows_perm _).mem_iff.mp hbm)
    exact hb b hbent

/-- A department with one active row (position 1) and one served row. -/
def mixedState : DBState :=
  { entries := [
      { queue_entry_id := 1, patient_id := 5, specialization_id := 1, status := 0, position := 1, joined_at := 0, served_at := none, removed_at := none, removal_reason := none, estimated_wait_time := 0 },
      { queue_entry_id := 2, patient_id := 6, specialization_id := 1, status := 3, position := 2, joined_at := 1, served_at := some 2, removed_at := none, removal_reason := none, estimated_wait_time := 0 }]
    specializations := [{ specialization_id := 1, max_capacity := 5, is_active := true }]
    patients := [5, 6]
    nextId := 3
    now := 4 }

/-- C8 counterexample: in `mixedState` the full-queue view puts the
`Served` row (status 3, `served_at` set) FIRST and the active row after
it — served rows are not appended after the active ones. -/
theorem C8_counterexample :
    (get_queue mixedState 1 false).1 =
      [{ queue_entry_id := 2, patient_id := 6, specialization_id := 1, status := 3, position := 1, joined_at := 1, served_at := some 2, removed_at := none, removal_reason := none, estimated_wait_time := 0 },
       { queue_entry_id := 1, patient_id := 5, specialization_id := 1, status := 0, position := 2, joined_at := 0, served_at := none, removed_at := none, removal_reason := none, estimated_wait_time := 0 }] ∧
    activeRow { queue_entry_id := 2, patient_id := 6, specialization_id := 1, status := 3, position := 1, joined_at := 1, served_at := some 2, removed_at := none, removal_reason := none, estimated_wait_time := 0 } = false ∧
    activeRow { queue_entry_id := 1, patient_id := 5, specialization_id := 1, status := 0, position := 2, joined_at := 0, served_at := none, removed_at := none, removal_reason := none, estimated_wait_time := 0 } = true := by
  decide

/-- Witness for the amended C8 at `mixedState`. -/
theorem C8_get_queue_order_witness :
    List.Pairwise queueBefore (get_queue mixedState 1 false).1 ∧
    ((get_queue mixedState 1 false).1.map fun e => e.queue_entry_id).Perm
      ((rowsFor mixedState 1 false).map fun e => e.queue_entry_id) ∧
    (get_queue mixedState 1 false).1 =
      ((get_queue mixedState 1 false).1.filter fun e => e.status == 3) ++
      ((get_queue mixedState 1 false).1.filter fun e => !(e.status == 3)) :=
  C8_get_queue_order mixedState 1 (by decide)

/-- C10: reading the full queue of `mixedState` persists positions for
the served row too (status 3 sorts first, so it takes position 1),
clobbering the active row's stored position (now 2), after which the
active positions are no longer `1..N`. -/
theorem C10_inactive_positions_clobbered :
    OrderedPositions mixedState 1 ∧
    ¬ OrderedPositions (get_queue mixedState 1 false).2 1 ∧
    get_queue_entry (get_queue mixedState 1 false).2 2 =
      some { queue_entry_id := 2, patient_id := 6, specialization_id := 1, status := 3, position := 1, joined_at := 1, served_at := some 2, removed_at := none, removal_reason := none, estimated_wait_time := 0 } ∧
    get_queue_entry (get_queue mixedState 1 false).2 1 =
      some { queue_entry_id := 1, patient_id := 5, specialization_id := 1, status := 0, position := 2, joined_at := 0, served_at := none, removed_at := none, removal_reason := none, estimated_wait_time := 0 } := by
  decide

end HospitalQueue

namespace HospitalQueue

/-! ## Join preconditions (C7) -/

theorem setPosition_length (entries : List QueueEntry) (id pos : Nat) :
    (setPosition entries id pos).length = entries.length :=
  List.length_map _ _

theorem setPosition_map_id (entries : List QueueEntry) (id pos : Nat) :
    ((setPosition entries id pos).map fun e => e.queue_entry_id) =
      entries.map fun e => e.queue_entry_id := by
  unfold setPosition
  rw [List.map_map]
  apply List.map_congr_left
  intro e _
  simp only [Function.comp]
  by_cases hc : e.queue_entry_id = id <;> simp [hc]

theorem persistPositions_length (l : List QueueEntry) (i : Nat)
    (entries : List QueueEntry) :
    (persistPositions l i entries).length = entries.length := by
  induction l generalizing i entries with
  | nil => rfl
  | cons a t ih =>
    simp only [persistPositions]
    rw [ih, setPosition_length]

theorem persistPositions_map_id (l : List QueueEntry) (i : Nat)
    (entries : List QueueEntry) :
    ((persistPositions l i entries).map fun e => e.queue_entry_id) =
      entries.map fun e => e.queue_entry_id := by
  induction l generalizing i entries with
  | nil => rfl
  | cons a t ih =>
    simp only [persistPositions]
    rw [ih, setPosition_map_id]

theorem get_queue_entries_length (s : DBState) (d : Nat) (b : Bool) :
    (get_queue s d b).2.entries.length = s.entries.length :=
  persistPositions_length _ 1 _

theorem get_queue_entries_map_id (s : DBState) (d : Nat) (b : Bool) :
    ((get_queue s d b).2.entries.map fun e => e.queue_entry_id) =
      s.entries.map fun e => e.queue_entry_id :=
  persistPositions_map_id _ 1 _

/-- C7 (amended): `add_patient_to_queue` validates the priority first
(`ValidationError`, before any mutation) and the department's existence
(`NotFoundError` carrying the id, with no entry created); but it checks
NEITHER the department's `is_active` flag NOR the patient's existence —
a join into an inactive department by an unknown patient succeeds and
creates an entry. -/
theorem C7_join_preconditions (s : DBState) (p d st : Nat) :
    (¬ (st = 0 ∨ st = 1 ∨ st = 2) →
      add_patient_to_queue s p d st = (Except.error QueueError.validationError, s)) ∧
    ((st = 0 ∨ st = 1 ∨ st = 2) → get_active_queue_entry s p d = none →
      find_specialization s d = none →
      (add_patient_to_queue s p d st).1 =
        Except.error (QueueError.specializationNotFound d) ∧
      ((add_patient_to_queue s p d st).2.entries.map fun e => e.queue_entry_id) =
        s.entries.map fun e => e.queue_entry_id) ∧
    (∀ sp, (st = 0 ∨ st = 1 ∨ st = 2) → get_active_queue_entry s p d = none →
      find_specialization s d = some sp → sp.is_active = false →
      p ∉ s.patients → (get_queue s d true).1.length < sp.max_capacity →
      (add_patient_to_queue s p d st).1 = Except.ok s.nextId ∧
      (add_patient_to_queue s p d st).2.entries.length = s.entries.length + 1) := by
  refine ⟨?_, ?_, ?_⟩
  · intro hst
    exact add_validation_eq s p d st hst
  · intro hst hdup hsp
    rw [add_notfound_eq s p d st hst hdup hsp]
    exact ⟨rfl, get_queue_entries_map_id s d true⟩
  · intro sp hst hdup hsp hinact hpat hcap
    rw [add_success_eq s p d st sp hst hdup hsp (by omega)]
    refine ⟨rfl, ?_⟩
    show (addSuccessState s p d st).entries.length = s.entries.length + 1
    unfold addSuccessState reorder_queue_positions
    rw [get_queue_entries_length]
    show ((calculate_estimated_wait_time (get_queue s d true).2 d st
      ((get_queue s d true).1.length + 1)).2.entries ++
        [newEntry s p d st]).length = s.entries.length + 1
    rw [List.length_append, calculate_snd, get_queue_entries_length,
      get_queue_entries_length]
    rfl

/-- A department that exists but is inactive, with no known patients. -/
def inactiveState : DBState :=
  { entries := []
    specializations := [{ specialization_id := 1, max_capacity := 5, is_active := false }]
    patients := []
    nextId := 1
    now := 0 }

deriving instance DecidableEq for Except

/-- C7 counterexample: joining the inactive department 1 of
`inactiveState` as the nonexistent patient 7 does NOT fail with a
`NotFoundError` — it succeeds and creates an entry. -/
theorem C7_counterexample :
    (add_patient_to_queue inactiveState 7 1 0).1 = Except.ok 1 ∧
    (add_patient_to_queue inactiveState 7 1 0).2.entries.length = 1 ∧
    find_specialization inactiveState 1 =
      some { specialization_id := 1, max_capacity := 5, is_active := false } ∧
    ¬ 7 ∈ inactiveState.patients := by
  decide

/-- Witness for the amended C7 at `inactiveState`. -/
theorem C7_join_preconditions_witness :
    (add_patient_to_queue inactiveState 7 1 5 =
      (Except.error QueueError.validationError, inactiveState)) ∧
    (add_patient_to_queue inactiveState 7 2 0).1 =
      Except.error (QueueError.specializationNotFound 2) ∧
    (add_patient_to_queue inactiveState 7 1 0).1 = Except.ok 1 ∧
    (add_patient_to_queue inactiveState 7 1 0).2.entries.length = 1 := by
  refine ⟨?_, ?_, ?_, ?_⟩
  · exact (C7_join_preconditions inactiveState 7 1 5).1 (by decide)
  · exact ((C7_join_preconditions inactiveState 7 2 0).2.1 (by decide)
      (by decide) (by decide)).1
  · exact ((C7_join_preconditions inactiveState 7 1 0).2.2
      { specialization_id := 1, max_capacity := 5, is_active := false }
      (by decide) (by decide) (by decide) (by decide) (by decide) (by decide)).1
  · exact ((C7_join_preconditions inactiveState 7 1 0).2.2
      { specialization_id := 1, max_capacity := 5, is_active := false }
      (by decide) (by decide) (by decide) (by decide) (by decide) (by decide)).2

end HospitalQueue

namespace HospitalQueue

/-! ## Wait-time estimation (C5) -/

theorem calculate_fst_at_add (s : DBState) (d st : Nat) (h : NodupIds s) :
    (calculate_estimated_wait_time (get_queue s d true).2 d st
      ((get_queue s d true).1.length + 1)).1 =
    max (intMulFloat (((rowsFor s d true).countP fun e => decide (st ≤ e.status)) *
      AVERAGE_SERVICE_TIME) (multiplierNum st)) 0 := by
  have hrows : rowsFor (get_queue s d true).2 d true =
      (rowsFor s d true).map (patchFn s d true) :=
    rowsFor_get_queue_snd s d true d true h
  have hlen : (sortRows (rowsFor (get_queue s d true).2 d true)).length =
      (get_queue s d true).1.length := by
    rw [sortRows_length, hrows, List.length_map, get_queue_fst_length]
  have hcount := countP_withPositions_aheadPred
    (sortRows (rowsFor (get_queue s d true).2 d true)) st 1
    ((get_queue s d true).1.length + 1) (by omega)
  show max (intMulFloat
      (((withPositions 1 (sortRows (rowsFor (get_queue s d true).2 d true))).countP
        fun e => st < e.status ||
          (e.status == st && e.position < (get_queue s d true).1.length + 1)) *
        AVERAGE_SERVICE_TIME) (multiplierNum st)) 0 = _
  rw [hcount, countP_sortRows, hrows,
    show patchFn s d true = lookupPatch
      (withPositions 1 (sortRows (rowsFor s d true))) from rfl,
    countP_status_map_lookupPatch _ _ (fun n => decide (st ≤ n))]

theorem countP_rowsFor_strict_ahead (s : DBState) (d st : Nat)
    (h : ∀ e ∈ s.entries, e.joined_at < s.now) :
    ((rowsFor s d true).countP fun e => decide (st ≤ e.status)) =
      s.entries.countP fun e =>
        e.specialization_id == d && activeRow e &&
          (st < e.status || (e.status == st && e.joined_at < s.now)) := by
  unfold rowsFor
  rw [List.countP_filter]
  apply List.countP_congr
  intro e he
  have hj : e.joined_at < s.now := h e he
  cases hsp : (e.specialization_id == d) <;> cases hac : activeRow e <;>
    simp [hsp, hac, hj] <;> omega

/-- C5 (amended): at a successful admission the stored
`estimated_wait_minutes` equals the number of active entries of the
department whose `(priority, joined_at)` sort strictly before the new
entry, times `AVERAGE_SERVICE_TIME = 15`, times the priority multiplier
(`1.0` / `0.7` / `0.5` as IEEE-754 doubles), with the product computed
in double arithmetic and truncated toward zero, clamped to a minimum of
0.  Because `0.7` is a binary double and the product is truncated, the
Urgent value can be one less than the exact `count × 15 × 0.7`. -/
theorem C5_wait_estimate (s : DBState) (p d st : Nat) (sp : Specialization)
    (h : WellFormed s)
    (hst : st = 0 ∨ st = 1 ∨ st = 2)
    (hdup : get_active_queue_entry s p d = none)
    (hsp : find_specialization s d = some sp)
    (hcap : (get_queue s d true).1.length < sp.max_capacity) :
    (add_patient_to_queue s p d st).1 = Except.ok s.nextId ∧
    ∃ e', get_queue_entry (add_patient_to_queue s p d st).2 s.nextId = some e' ∧
      e'.estimated_wait_time =
        max (intMulFloat ((s.entries.countP fun e =>
          e.specialization_id == d && activeRow e &&
            (st < e.status || (e.status == st && e.joined_at < s.now))) *
          AVERAGE_SERVICE_TIME) (multiplierNum st)) 0 := by
  rw [add_success_eq s p d st sp hst hdup hsp (by omega)]
  refine ⟨rfl, ?_⟩
  have hwf1 := wellFormed_get_queue s d true h
  have hwf2 := wellFormed_get_queue _ d true hwf1
  have hwf3 := wellFormed_append_entry
    (calculate_estimated_wait_time (get_queue s d true).2 d st
      ((get_queue s d true).1.length + 1)).2
    (newEntry s p d st) rfl rfl hwf2
  show ∃ e', get_queue_entry (addSuccessState s p d st) s.nextId = some e' ∧ _
  unfold addSuccessState reorder_queue_positions
  rw [get_queue_entry_after_get_queue _ d true s.nextId hwf3.1]
  have hfind3 : get_queue_entry
      { (calculate_estimated_wait_time (get_queue s d true).2 d st
          ((get_queue s d true).1.length + 1)).2 with
        entries := (calculate_estimated_wait_time (get_queue s d true).2 d st
          ((get_queue s d true).1.length + 1)).2.entries ++ [newEntry s p d st]
        nextId := (calculate_estimated_wait_time (get_queue s d true).2 d st
          ((get_queue s d true).1.length + 1)).2.nextId + 1
        now := (calculate_estimated_wait_time (get_queue s d true).2 d st
          ((get_queue s d true).1.length + 1)).2.now + 1 } s.nextId =
      some (newEntry s p d st) := by
    show ((calculate_estimated_wait_time (get_queue s d true).2 d st
      ((get_queue s d true).1.length + 1)).2.entries ++
        [newEntry s p d st]).find? (fun x => x.queue_entry_id == s.nextId) = _
    rw [List.find?_append]
    have hpre : (calculate_estimated_wait_time (get_queue s d true).2 d st
        ((get_queue s d true).1.length + 1)).2.entries.find?
        (fun x => x.queue_entry_id == s.nextId) = none := by
      rw [List.find?_eq_none]
      intro x hx
      have hlt : x.queue_entry_id < s.nextId := (hwf2.2 x hx).2
      simp
      omega
    rw [hpre]
    show (List.find? (fun x => x.queue_entry_id == s.nextId)
      [newEntry s p d st]) = some (newEntry s p d st)
    have hbeq : (((newEntry s p d st).queue_entry_id == s.nextId) : Bool) = true := by
      simp [newEntry]
    simp only [List.find?, hbeq]
  rw [hfind3]
  refine ⟨_, rfl, ?_⟩
  show (patchFn _ _ _ (newEntry s p d st)).estimated_wait_time = _
  rw [patchFn, lookupPatch_estimated_wait_time]
  show (calculate_estimated_wait_time (get_queue s d true).2 d st
    ((get_queue s d true).1.length + 1)).1 = _
  rw [calculate_fst_at_add s d st h.1,
    countP_rowsFor_strict_ahead s d st (fun e he => (h.2 e he).1)]

end HospitalQueue

namespace HospitalQueue

/-- Six active `Urgent` rows in department 1 (capacity 10). -/
def urgentState : DBState :=
  { entries := [
      { queue_entry_id := 1, patient_id := 11, specialization_id := 1, status := 1, position := 1, joined_at := 0, served_at := none, removed_at := none, removal_reason := none, estimated_wait_time := 0 },
      { queue_entry_id := 2, patient_id := 12, specialization_id := 1, status := 1, position := 2, joined_at := 1, served_at := none, removed_at := none, removal_reason := none, estimated_wait_time := 0 },
      { queue_entry_id := 3, patient_id := 13, specialization_id := 1, status := 1, position := 3, joined_at := 2, served_at := none, removed_at := none, removal_reason := none, estimated_wait_time := 0 },
      { queue_entry_id := 4, patient_id := 14, specialization_id := 1, status := 1, position := 4, joined_at := 3, served_at := none, removed_at := none, removal_reason := none, estimated_wait_time := 0 },
      { queue_entry_id := 5, patient_id := 15, specialization_id := 1, status := 1, position := 5, joined_at := 4, served_at := none, removed_at := none, removal_reason := none, estimated_wait_time := 0 },
      { queue_entry_id := 6, patient_id := 16, specialization_id := 1, status := 1, position := 6, joined_at := 5, served_at := none, removed_at := none, removal_reason := none, estimated_wait_time := 0 }]
    specializations := [{ specialization_id := 1, max_capacity := 10, is_active := true }]
    patients := [11, 12, 13, 14, 15, 16, 7]
    nextId := 7
    now := 10 }

/-- C5 counterexample: an `Urgent` admission behind six `Urgent` rows
stores `estimated_wait_minutes = 62`, but the claim's formula gives
`6 × 15 × 0.7 = 63` exactly — the code multiplies by the binary double
`0.7` and truncates, losing one minute. -/
theorem C5_wait_counterexample :
    (add_patient_to_queue urgentState 7 1 1).1 = Except.ok 7 ∧
    get_queue_entry (add_patient_to_queue urgentState 7 1 1).2 7 =
      some { queue_entry_id := 7, patient_id := 7, specialization_id := 1, status := 1, position := 7, joined_at := 10, served_at := none, removed_at := none, removal_reason := none, estimated_wait_time := 62 } ∧
    ¬ ((62 : ℚ) = 6 * 15 * (7 / 10)) := by
  refine ⟨by decide, by decide, by norm_num⟩

/-- Two `SuperUrgent` rows already active in department 1. -/
def scenarioDState : DBState :=
  { entries := [
      { queue_entry_id := 1, patient_id := 5, specialization_id := 1, status := 2, position := 1, joined_at := 0, served_at := none, removed_at := none, removal_reason := none, estimated_wait_time := 0 },
      { queue_entry_id := 2, patient_id := 6, specialization_id := 1, status := 2, position := 2, joined_at := 1, served_at := none, removed_at := none, removal_reason := none, estimated_wait_time := 0 }]
    specializations := [{ specialization_id := 1, max_capacity := 10, is_active := true }]
    patients := [5, 6, 7]
    nextId := 3
    now := 5 }

/-- Witness for the amended C5 (scenario D): joining as Normal behind
two SuperUrgent rows stores 30; joining as SuperUrgent stores 15. -/
theorem C5_wait_estimate_witness :
    (∃ e', get_queue_entry (add_patient_to_queue scenarioDState 7 1 0).2 3 =
        some e' ∧ e'.estimated_wait_time = 30) ∧
    (∃ e', get_queue_entry (add_patient_to_queue scenarioDState 7 1 2).2 3 =
        some e' ∧ e'.estimated_wait_time = 15) := by
  constructor
  · obtain ⟨-, e', h1, h2⟩ := C5_wait_estimate scenarioDState 7 1 0
      { specialization_id := 1, max_capacity := 10, is_active := true }
      (by decide) (by decide) (by decide) (by decide) (by decide)
    exact ⟨e', h1, by rw [h2]; decide⟩
  · obtain ⟨-, e', h1, h2⟩ := C5_wait_estimate scenarioDState 7 1 2
      { specialization_id := 1, max_capacity := 10, is_active := true }
      (by decide) (by decide) (by decide) (by decide) (by decide)
    exact ⟨e', h1, by rw [h2]; decide⟩

end HospitalQueue
